import Mathlib

/-!
# ylog: a shallow embedding of `ylog.h`

The header keeps one process-wide registry: the integer `YLOG_CALLBACK_COUNT`
and the heap array `YLOG_LOG_CALLBACKS` of `LogCallback *` slots.  The
embedding passes that registry explicitly as a `World`, together with the
sequence of externally visible effects (lock and unlock calls, handler
invocations, `free` calls, stores to the registry) performed so far.

Modelling conventions
* a C pointer to a struct is an `Option` of the struct it points to, `none`
  being `NULL`;
* a function pointer is an `Option Nat`, `none` being `NULL`;
* a slot of a freshly allocated array holds an indeterminate value;
* each call of `malloc` or `realloc` takes a boolean telling whether the
  allocator succeeds; the clock and the formatting of `YlogCreateEvent` are
  answers of the C library, passed as an `EventEnv`;
* the function-like forms of lines 43-59 are definitions that expand as the
  preprocessor does;
* behaviour that C leaves undefined (indexing `NULL` or past the end of the
  array, using an indeterminate slot, dereferencing a `NULL` callback, signed
  overflow of the count) is reported as a `Fault`;
* handlers are external code: an invocation is recorded as an effect and is
  assumed to leave the registry alone;
* a call of `free` is recorded as an effect.  Callbacks are held by value, so
  the embedding does not know whether a pointer handed to `free` is a live
  block obtained from `malloc`, nor whether the same pointer sits in two
  slots: a result `Except.ok` whose effects contain a `freeCallback` stands
  for a return of the C function only when every such pointer is a distinct
  live heap block.  No general statement below asserts that a call which
  frees a callback returns.
-/

namespace Ylog

/-! ## Constants (ylog.h lines 39-40, 105-106) -/

/-- Return code of a failed operation. -/
def YLOG_FAILURE : Int := 0

/-- Return code of a successful operation. -/
def YLOG_SUCCESS : Int := 1

/-- Enumerator 0 of `enum YLOGTYPE`. -/
def YLOGTRACE : Int := 0

/-- Enumerator 1 of `enum YLOGTYPE`. -/
def YLOGDEBUG : Int := 1

/-- Enumerator 2 of `enum YLOGTYPE`. -/
def YLOGINFO : Int := 2

/-- Enumerator 3 of `enum YLOGTYPE`. -/
def YLOGWARN : Int := 3

/-- Enumerator 4 of `enum YLOGTYPE`. -/
def YLOGERROR : Int := 4

/-- Enumerator 5 of `enum YLOGTYPE`. -/
def YLOGFATAL : Int := 5

/-- Enumerator 6 of `enum YLOGTYPE`, the wildcard. -/
def YLOGANY : Int := 6

/-- The table of level names, indexed by enumerator. -/
def YLOG_LOGTYPE_STRINGS : List String :=
  ["TRACE", "DEBUG", "INFO", "WARN", "ERROR", "FATAL", "ANY"]

/-- Largest value of the C type `int` (32 bits). -/
def INT_MAX : Int := 2147483647

/-! ## Data model (ylog.h lines 79-103) -/

/-- A value of type `char *`: never assigned, `NULL`, or a buffer holding text. -/
inductive CharPtr where
  | indeterminate
  | null
  | text (s : String)
deriving DecidableEq, Repr

/-- The struct `LogEvent`; `type` is an `enum YLOGTYPE` held as an integer. -/
structure LogEvent where
  type : Int
  time : Int
  msg : CharPtr
deriving DecidableEq, Repr

/-- The struct `LogCallback`; `func` is the handler, `none` when it is `NULL`. -/
structure LogCallback where
  type : Int
  func : Option Nat
deriving DecidableEq, Repr

/-- One element of the array `YLOG_LOG_CALLBACKS`. -/
inductive Slot where
  | indeterminate
  | ptr (cb : Option LogCallback)
deriving DecidableEq, Repr

/-- Undefined behaviour the embedding detects. -/
inductive Fault where
  | nullDeref
  | outOfBounds
  | indeterminateRead
  | signedOverflow
deriving DecidableEq, Repr

/-- Externally visible steps, in program order.  `freeMessage` is the release
of a message buffer, `free(ev->msg)`. -/
inductive Effect where
  | lock
  | unlock
  | invoke (func : Nat) (ev : LogEvent)
  | freeCallback (cb : LogCallback)
  | freeList (slots : List Slot)
  | freeEvent (ev : LogEvent)
  | freeMessage (msg : CharPtr)
  | storeCount (v : Int)
  | storeList (p : Option (List Slot))
  | storeSlot (i : Int) (cb : Option LogCallback)
deriving DecidableEq, Repr

/-- The two globals of the registry and the effects performed so far. -/
structure World where
  YLOG_CALLBACK_COUNT : Int
  YLOG_LOG_CALLBACKS : Option (List Slot)
  trace : List Effect
deriving DecidableEq, Repr

/-- The registry at program start (lines 102-103), after the effects `t`. -/
def World.initial (t : List Effect) : World :=
  { YLOG_CALLBACK_COUNT := 0, YLOG_LOG_CALLBACKS := none, trace := t }

/-! ## Primitive steps -/

/-- Record one effect. -/
def emit (e : Effect) (w : World) : World :=
  { w with trace := w.trace ++ [e] }

/-- `Ylog_Lock_Thread()` (lines 236-245): the call is recorded. -/
def Ylog_Lock_Thread (w : World) : World := emit Effect.lock w

/-- `Ylog_Unlock_Thread()` (lines 247-256): the call is recorded. -/
def Ylog_Unlock_Thread (w : World) : World := emit Effect.unlock w

/-- Assignment to `YLOG_CALLBACK_COUNT`. -/
def setCount (v : Int) (w : World) : World :=
  emit (Effect.storeCount v) { w with YLOG_CALLBACK_COUNT := v }

/-- Assignment to the pointer `YLOG_LOG_CALLBACKS`. -/
def setList (p : Option (List Slot)) (w : World) : World :=
  emit (Effect.storeList p) { w with YLOG_LOG_CALLBACKS := p }

/-- The read `YLOG_LOG_CALLBACKS[i]`. -/
def readSlot (w : World) (i : Nat) : Except Fault (Option LogCallback) :=
  match w.YLOG_LOG_CALLBACKS with
  | none => Except.error Fault.nullDeref
  | some slots =>
    match slots[i]? with
    | none => Except.error Fault.outOfBounds
    | some Slot.indeterminate => Except.error Fault.indeterminateRead
    | some (Slot.ptr p) => Except.ok p

/-- The store `YLOG_LOG_CALLBACKS[i] = cb`. -/
def writeSlot (i : Int) (cb : Option LogCallback) (w : World) : Except Fault World :=
  match w.YLOG_LOG_CALLBACKS with
  | none => Except.error Fault.nullDeref
  | some slots =>
    if 0 ≤ i ∧ i < slots.length then
      Except.ok (emit (Effect.storeSlot i cb)
        { w with YLOG_LOG_CALLBACKS := some (slots.set i.toNat (Slot.ptr cb)) })
    else Except.error Fault.outOfBounds

/-- The call `malloc(n * sizeof(LogCallback *))`: `NULL` when the allocator
fails, otherwise `n` slots of indeterminate content. -/
def mallocList (succeeds : Bool) (n : Int) : Option (List Slot) :=
  if succeeds then some (List.replicate n.toNat Slot.indeterminate) else none

/-- The call `realloc(old, n * sizeof(LogCallback *))`: `NULL` when the
allocator fails (the old block is then kept), otherwise the old content cut
or extended to `n` slots, new slots being indeterminate. -/
def reallocList (succeeds : Bool) (old : List Slot) (n : Int) : Option (List Slot) :=
  if succeeds then
    some (old.take n.toNat ++ List.replicate (n.toNat - old.length) Slot.indeterminate)
  else none

/-! ## The functions of ylog.h -/

/-- The loop of `Ylog_Free_Log_Callback_List` (lines 222-226): `k` iterations
remain, `i` is the loop index.  `free(cb)` is recorded and never faults here:
that `cb` is a live heap block, not freed by an earlier iteration, is an
obligation on the callers of `YlogAddCallback` that the embedding cannot
check, so the loop is only used in statements about runs that return. -/
def freeLoop : Nat → Nat → World → Except Fault World
  | 0, _, w => Except.ok w
  | k + 1, i, w =>
    match readSlot w i with
    | Except.error f => Except.error f
    | Except.ok none => freeLoop k (i + 1) w
    | Except.ok (some cb) => freeLoop k (i + 1) (emit (Effect.freeCallback cb) w)

/-- `Ylog_Free_Log_Callback_List` (lines 219-232). -/
def Ylog_Free_Log_Callback_List (w : World) : Except Fault World :=
  let w1 := Ylog_Lock_Thread w
  match w1.YLOG_LOG_CALLBACKS with
  | none => Except.ok (Ylog_Unlock_Thread w1)
  | some slots =>
    match freeLoop w1.YLOG_CALLBACK_COUNT.toNat 0 w1 with
    | Except.error f => Except.error f
    | Except.ok w2 =>
      let w3 := emit (Effect.freeList slots) w2
      let w4 := setCount 0 w3
      let w5 := setList none w4
      Except.ok (Ylog_Unlock_Thread w5)

/-- `Ylog_Alloc_Log_Callback_List` (lines 206-217); `alloc` tells whether
`malloc` succeeds. -/
def Ylog_Alloc_Log_Callback_List (alloc : Bool) (w : World) : Except Fault (Int × World) :=
  match (if w.YLOG_LOG_CALLBACKS.isSome then Ylog_Free_Log_Callback_List w else Except.ok w) with
  | Except.error f => Except.error f
  | Except.ok w1 =>
    let w2 := Ylog_Lock_Thread w1
    if w2.YLOG_CALLBACK_COUNT < 1 then Except.ok (YLOG_SUCCESS, Ylog_Unlock_Thread w2)
    else
      let w3 := setList (mallocList alloc w2.YLOG_CALLBACK_COUNT) w2
      if w3.YLOG_LOG_CALLBACKS.isNone then Except.ok (YLOG_FAILURE, Ylog_Unlock_Thread w3)
      else Except.ok (YLOG_SUCCESS, Ylog_Unlock_Thread w3)

/-- `Ylog_Realloc_Log_Callback_List` (lines 192-204); `alloc` tells whether
the one allocator call made on the path taken succeeds. -/
def Ylog_Realloc_Log_Callback_List (alloc : Bool) (w : World) : Except Fault (Int × World) :=
  if w.YLOG_CALLBACK_COUNT < 1 then
    match Ylog_Free_Log_Callback_List w with
    | Except.error f => Except.error f
    | Except.ok w1 => Except.ok (YLOG_SUCCESS, w1)
  else
    match w.YLOG_LOG_CALLBACKS with
    | none => Ylog_Alloc_Log_Callback_List alloc w
    | some slots =>
      let w1 := Ylog_Lock_Thread w
      match reallocList alloc slots w1.YLOG_CALLBACK_COUNT with
      | none => Except.ok (YLOG_FAILURE, Ylog_Unlock_Thread w1)
      | some temp =>
        let w2 := setList (some temp) w1
        Except.ok (YLOG_SUCCESS, Ylog_Unlock_Thread w2)

/-- `Ylog_Log_Callback_Increase` (lines 184-190).  `YLOG_CALLBACK_COUNT++`
at `INT_MAX` is a signed overflow. -/
def Ylog_Log_Callback_Increase (alloc : Bool) (w : World) : Except Fault (Int × World) :=
  let w1 := Ylog_Lock_Thread w
  let w2 := if w1.YLOG_CALLBACK_COUNT < 0 then setCount 0 w1 else w1
  if w2.YLOG_CALLBACK_COUNT = INT_MAX then Except.error Fault.signedOverflow
  else
    let w3 := setCount (w2.YLOG_CALLBACK_COUNT + 1) w2
    let w4 := Ylog_Unlock_Thread w3
    Ylog_Realloc_Log_Callback_List alloc w4

/-- `YlogAddCallback` (lines 152-161). -/
def YlogAddCallback (alloc : Bool) (cb : Option LogCallback) (w : World) :
    Except Fault (Int × World) :=
  match cb with
  | none => Except.ok (YLOG_FAILURE, w)
  | some c =>
    if c.func.isNone then Except.ok (YLOG_FAILURE, w)
    else
      match Ylog_Log_Callback_Increase alloc w with
      | Except.error f => Except.error f
      | Except.ok (r, w1) =>
        if r = 0 then Except.ok (YLOG_FAILURE, w1)
        else
          let w2 := Ylog_Lock_Thread w1
          match writeSlot (w2.YLOG_CALLBACK_COUNT - 1) cb w2 with
          | Except.error f => Except.error f
          | Except.ok w3 => Except.ok (YLOG_SUCCESS, Ylog_Unlock_Thread w3)

/-- The loop of `YlogExecuteEvent` (lines 167-171): `k` iterations remain,
`i` is the loop index. -/
def executeLoop (ev : LogEvent) : Nat → Nat → World → Except Fault World
  | 0, _, w => Except.ok w
  | k + 1, i, w =>
    match readSlot w i with
    | Except.error f => Except.error f
    | Except.ok none => Except.error Fault.nullDeref
    | Except.ok (some cb) =>
      if ¬ (ev.type = cb.type ∨ ev.type = YLOGANY ∨ cb.type = YLOGANY) then
        executeLoop ev k (i + 1) w
      else
        match cb.func with
        | none => executeLoop ev k (i + 1) w
        | some f => executeLoop ev k (i + 1) (emit (Effect.invoke f ev) w)

/-- `YlogExecuteEvent` (lines 164-174). -/
def YlogExecuteEvent (ev : Option LogEvent) (w : World) : Except Fault World :=
  match ev with
  | none => Except.ok w
  | some e =>
    let w1 := Ylog_Lock_Thread w
    match executeLoop e w1.YLOG_CALLBACK_COUNT.toNat 0 w1 with
    | Except.error f => Except.error f
    | Except.ok w2 =>
      let w3 := emit (Effect.freeEvent e) w2
      Except.ok (Ylog_Unlock_Thread w3)

/-- `YlogEnumToString` (lines 177-182).  Inside the guard the index is within
the table, so the empty default of the lookup is never produced. -/
def YlogEnumToString (type : Int) : String :=
  if type ≥ YLOGTRACE ∧ type ≤ YLOGANY then
    YLOG_LOGTYPE_STRINGS.getD type.toNat ""
  else "UNKNOWN"

/-- `YlogCreateCallback` (lines 144-149); `alloc` tells whether `malloc`
succeeds.  The function has no access to the registry, which is returned as
it was received. -/
def YlogCreateCallback (alloc : Bool) (type : Int) (func : Option Nat) (w : World) :
    Option LogCallback × World :=
  match func with
  | none => (none, w)
  | some f =>
    if alloc then (some { type := type, func := some f }, w) else (none, w)

/-- What the C library answers during one call of `YlogCreateEvent`: whether
`malloc(sizeof(LogEvent))` succeeds, the value `time` stores, the result of
the measuring call `vsnprintf(NULL, 0, format, args)`, whether the `malloc`
of the message buffer succeeds, and the text the second `vsnprintf` writes
into that buffer. -/
structure EventEnv where
  allocEvent : Bool
  now : Int
  requiredSize : Int
  allocMsg : Bool
  text : String
deriving DecidableEq, Repr

/-- `YlogCreateEvent` (lines 125-141).  The struct comes from `malloc`, so
`msg` is indeterminate until line 135 assigns it; `requiredSize + 1` at
`INT_MAX` is a signed overflow. -/
def YlogCreateEvent (env : EventEnv) (type : Int) : Except Fault (Option LogEvent) :=
  if ¬ env.allocEvent then Except.ok none
  else
    let ev : LogEvent := { type := type, time := env.now, msg := CharPtr.indeterminate }
    if env.requiredSize < 0 then Except.ok (some ev)
    else if env.requiredSize = INT_MAX then Except.error Fault.signedOverflow
    else
      if ¬ env.allocMsg then Except.ok (some { ev with msg := CharPtr.null })
      else Except.ok (some { ev with msg := CharPtr.text env.text })

/-- The expression `YlogExecuteEvent(YlogCreateEvent(type, format, ...))`, to
which `Ylog` and the seven per-level forms expand: the argument is evaluated,
then passed on. -/
def executeCreated (env : EventEnv) (type : Int) (w : World) : Except Fault World :=
  match YlogCreateEvent env type with
  | Except.error f => Except.error f
  | Except.ok ev => YlogExecuteEvent ev w

/-- The expression `YlogAddCallback(YlogCreateCallback(type, func))`, to which
the seven per-level registration forms expand; `allocCb` is the outcome of
the `malloc` of the callback, `allocList` that of the growth of the array. -/
def addCreated (allocCb allocList : Bool) (type : Int) (func : Option Nat) (w : World) :
    Except Fault (Int × World) :=
  YlogAddCallback allocList (YlogCreateCallback allocCb type func w).1
    (YlogCreateCallback allocCb type func w).2

/-- `Ylog(type, format, ...)` (line 43). -/
def Ylog (env : EventEnv) (type : Int) (w : World) : Except Fault World :=
  executeCreated env type w

/-- `YlogAddTrace(func)` (line 45). -/
def YlogAddTrace (allocCb allocList : Bool) (func : Option Nat) (w : World) :
    Except Fault (Int × World) :=
  addCreated allocCb allocList YLOGTRACE func w

/-- `YlogAddDebug(func)` (line 46). -/
def YlogAddDebug (allocCb allocList : Bool) (func : Option Nat) (w : World) :
    Except Fault (Int × World) :=
  addCreated allocCb allocList YLOGDEBUG func w

/-- `YlogAddInfo(func)` (line 47). -/
def YlogAddInfo (allocCb allocList : Bool) (func : Option Nat) (w : World) :
    Except Fault (Int × World) :=
  addCreated allocCb allocList YLOGINFO func w

/-- `YlogAddWarn(func)` (line 48). -/
def YlogAddWarn (allocCb allocList : Bool) (func : Option Nat) (w : World) :
    Except Fault (Int × World) :=
  addCreated allocCb allocList YLOGWARN func w

/-- `YlogAddError(func)` (line 49).  The text of the line passes the
identifier `ERROR`, which ylog.h does not declare; its value where the form
is used is the parameter `ERROR`. -/
def YlogAddError (ERROR : Int) (allocCb allocList : Bool) (func : Option Nat) (w : World) :
    Except Fault (Int × World) :=
  addCreated allocCb allocList ERROR func w

/-- `YlogAddFatal(func)` (line 50). -/
def YlogAddFatal (allocCb allocList : Bool) (func : Option Nat) (w : World) :
    Except Fault (Int × World) :=
  addCreated allocCb allocList YLOGFATAL func w

/-- `YlogAddAny(func)` (line 51). -/
def YlogAddAny (allocCb allocList : Bool) (func : Option Nat) (w : World) :
    Except Fault (Int × World) :=
  addCreated allocCb allocList YLOGANY func w

/-- `YlogTrace(format, ...)` (line 53). -/
def YlogTrace (env : EventEnv) (w : World) : Except Fault World :=
  executeCreated env YLOGTRACE w

/-- `YlogDebug(format, ...)` (line 54). -/
def YlogDebug (env : EventEnv) (w : World) : Except Fault World :=
  executeCreated env YLOGDEBUG w

/-- `YlogInfo(format, ...)` (line 55). -/
def YlogInfo (env : EventEnv) (w : World) : Except Fault World :=
  executeCreated env YLOGINFO w

/-- `YlogWarn(format, ...)` (line 56). -/
def YlogWarn (env : EventEnv) (w : World) : Except Fault World :=
  executeCreated env YLOGWARN w

/-- `YlogError(format, ...)` (line 57).  As in `YlogAddError`, the text of
the line passes the identifier `ERROR`, taken as a parameter. -/
def YlogError (ERROR : Int) (env : EventEnv) (w : World) : Except Fault World :=
  executeCreated env ERROR w

/-- `YlogFatal(format, ...)` (line 58). -/
def YlogFatal (env : EventEnv) (w : World) : Except Fault World :=
  executeCreated env YLOGFATAL w

/-- `YlogAny(format, ...)` (line 59). -/
def YlogAny (env : EventEnv) (w : World) : Except Fault World :=
  executeCreated env YLOGANY w

/-! ## Observations used in the statements -/

/-- The handler invocations among a sequence of effects, in order. -/
def invocations : List Effect → List (Nat × LogEvent)
  | [] => []
  | Effect.invoke f ev :: rest => (f, ev) :: invocations rest
  | _ :: rest => invocations rest

/-- The effects performed between the world `w` and a later world `w2`. -/
def effectsSince (w w2 : World) : List Effect :=
  w2.trace.drop w.trace.length

/-- A sequence of `YlogAddCallback` calls, each with its allocator outcome and
its argument; the return codes are collected in call order. -/
def registerAll : List (Bool × Option LogCallback) → World → Except Fault (List Int × World)
  | [], w => Except.ok ([], w)
  | (alloc, cb) :: rest, w =>
    match YlogAddCallback alloc cb w with
    | Except.error f => Except.error f
    | Except.ok (r, w1) =>
      match registerAll rest w1 with
      | Except.error f => Except.error f
      | Except.ok (rs, w2) => Except.ok (r :: rs, w2)

/-- The invocations the dispatch rule of the specification prescribes for the
registrations `cbs`, written from the specification and not from the loop:
keep, in order, the registrations whose filter equals the severity of the
event or where either of the two is the wildcard, and pair the handler of
each with the event. -/
def expectedInvocations (ev : LogEvent) (cbs : List LogCallback) : List (Nat × LogEvent) :=
  (cbs.filter (fun cb => decide (ev.type = cb.type ∨ ev.type = YLOGANY ∨ cb.type = YLOGANY))).filterMap
    (fun cb => cb.func.map (fun f => (f, ev)))

/-- The registry holds exactly the registrations `cbs`: the count is their
number and the array, when there is one, has one initialised slot for each,
in order. -/
def Registered (cbs : List LogCallback) (w : World) : Prop :=
  w.YLOG_CALLBACK_COUNT = cbs.length ∧
    (w.YLOG_LOG_CALLBACKS = some (cbs.map (fun c => Slot.ptr (some c)))
      ∨ (cbs = [] ∧ w.YLOG_LOG_CALLBACKS = none))

instance (cbs : List LogCallback) (w : World) : Decidable (Registered cbs w) := by
  unfold Registered
  infer_instance

/-- A registry whose array holds the registrations `cbs`, after the effects `t`. -/
def registryOf (cbs : List LogCallback) (t : List Effect) : World :=
  { YLOG_CALLBACK_COUNT := cbs.length,
    YLOG_LOG_CALLBACKS := some (cbs.map (fun c => Slot.ptr (some c))),
    trace := t }

/-- Whether every store to the registry (to the count, to the storage pointer
or to a slot) among the effects happens at a positive lock depth, that is
after a `Ylog_Lock_Thread` call and before the matching `Ylog_Unlock_Thread`
call; the first argument is the depth at the start. -/
def storesUnderLock : Nat → List Effect → Bool
  | _, [] => true
  | d, Effect.lock :: rest => storesUnderLock (d + 1) rest
  | d, Effect.unlock :: rest => storesUnderLock (d - 1) rest
  | d, Effect.storeCount _ :: rest => decide (0 < d) && storesUnderLock d rest
  | d, Effect.storeList _ :: rest => decide (0 < d) && storesUnderLock d rest
  | d, Effect.storeSlot _ _ :: rest => decide (0 < d) && storesUnderLock d rest
  | d, _ :: rest => storesUnderLock d rest

/-- Number of `Ylog_Lock_Thread` calls among the effects. -/
def lockCalls : List Effect → Nat
  | [] => 0
  | Effect.lock :: rest => lockCalls rest + 1
  | _ :: rest => lockCalls rest

/-- Number of `Ylog_Unlock_Thread` calls among the effects. -/
def unlockCalls : List Effect → Nat
  | [] => 0
  | Effect.unlock :: rest => unlockCalls rest + 1
  | _ :: rest => unlockCalls rest

/-- Whether the lock is never taken while already held and never released
while not held; the first argument tells whether it is held at the start. -/
def lockNeverNested : Bool → List Effect → Bool
  | _, [] => true
  | held, Effect.lock :: rest => !held && lockNeverNested true rest
  | held, Effect.unlock :: rest => held && lockNeverNested false rest
  | held, _ :: rest => lockNeverNested held rest

/-- One scan for the whole discipline, used in the proofs: `none` as soon as
the lock is taken while held, released while not held, or a store happens
while it is not held; otherwise whether the lock is held at the end. -/
def lockScan : Bool → List Effect → Option Bool
  | held, [] => some held
  | held, Effect.lock :: rest => if held then none else lockScan true rest
  | held, Effect.unlock :: rest => if held then lockScan false rest else none
  | held, Effect.storeCount _ :: rest => if held then lockScan held rest else none
  | held, Effect.storeList _ :: rest => if held then lockScan held rest else none
  | held, Effect.storeSlot _ _ :: rest => if held then lockScan held rest else none
  | held, _ :: rest => lockScan held rest

/-- Effects that are neither lock calls nor stores. -/
def quiet : List Effect → Bool
  | [] => true
  | Effect.invoke _ _ :: rest => quiet rest
  | Effect.freeCallback _ :: rest => quiet rest
  | Effect.freeList _ :: rest => quiet rest
  | Effect.freeEvent _ :: rest => quiet rest
  | Effect.freeMessage _ :: rest => quiet rest
  | _ :: _ => false

/-- The `free` calls among a sequence of effects, in order. -/
def releases : List Effect → List Effect
  | [] => []
  | Effect.freeCallback cb :: rest => Effect.freeCallback cb :: releases rest
  | Effect.freeList l :: rest => Effect.freeList l :: releases rest
  | Effect.freeEvent ev :: rest => Effect.freeEvent ev :: releases rest
  | Effect.freeMessage m :: rest => Effect.freeMessage m :: releases rest
  | _ :: rest => releases rest

/-! ## Concrete inputs used to exercise the statements -/

/-- A registration with the wildcard filter and handler 1. -/
def sampleAny : LogCallback := { type := YLOGANY, func := some 1 }

/-- A registration with filter `YLOGERROR` and handler 2. -/
def sampleError : LogCallback := { type := YLOGERROR, func := some 2 }

/-- An event of severity `YLOGERROR`. -/
def sampleEvent : LogEvent := { type := YLOGERROR, time := 0, msg := CharPtr.text "boom" }

/-- Two registration calls whose allocations succeed. -/
def sampleRequests : List (Bool × Option LogCallback) :=
  [(true, some sampleAny), (true, some sampleError)]

/-- The world reached from the initial registry by `sampleRequests`. -/
def sampleWorld : World :=
  { YLOG_CALLBACK_COUNT := 2,
    YLOG_LOG_CALLBACKS := some [Slot.ptr (some sampleAny), Slot.ptr (some sampleError)],
    trace := [Effect.lock, Effect.storeCount 1, Effect.unlock,
      Effect.lock, Effect.storeList (some [Slot.indeterminate]), Effect.unlock,
      Effect.lock, Effect.storeSlot 0 (some sampleAny), Effect.unlock,
      Effect.lock, Effect.storeCount 2, Effect.unlock,
      Effect.lock, Effect.storeList (some [Slot.ptr (some sampleAny), Slot.indeterminate]),
      Effect.unlock,
      Effect.lock, Effect.storeSlot 1 (some sampleError), Effect.unlock] }

/-- The world reached from the initial registry by one registration call whose
first allocation fails. -/
def worldAfterFailedFirstAlloc : World :=
  { YLOG_CALLBACK_COUNT := 1,
    YLOG_LOG_CALLBACKS := none,
    trace := [Effect.lock, Effect.storeCount 1, Effect.unlock,
      Effect.lock, Effect.storeList none, Effect.unlock] }

/-- The world reached from the initial registry by one successful registration
of `sampleAny`. -/
def worldAfterOneRegistration : World :=
  { YLOG_CALLBACK_COUNT := 1,
    YLOG_LOG_CALLBACKS := some [Slot.ptr (some sampleAny)],
    trace := [Effect.lock, Effect.storeCount 1, Effect.unlock,
      Effect.lock, Effect.storeList (some [Slot.indeterminate]), Effect.unlock,
      Effect.lock, Effect.storeSlot 0 (some sampleAny), Effect.unlock] }

/-- The world reached from `worldAfterOneRegistration` by a registration call
whose reallocation fails. -/
def worldAfterFailedRealloc : World :=
  { YLOG_CALLBACK_COUNT := 2,
    YLOG_LOG_CALLBACKS := some [Slot.ptr (some sampleAny)],
    trace := worldAfterOneRegistration.trace ++
      [Effect.lock, Effect.storeCount 2, Effect.unlock, Effect.lock, Effect.unlock] }

/-- Library answers under which `YlogCreateEvent` succeeds with the text "boom". -/
def sampleEnv : EventEnv :=
  { allocEvent := true, now := 0, requiredSize := 4, allocMsg := true, text := "boom" }

/-- The world reached from `worldAfterFailedRealloc` by one more registration
of `sampleError` whose reallocation succeeds. -/
def worldWithUnassignedSlot : World :=
  { YLOG_CALLBACK_COUNT := 3,
    YLOG_LOG_CALLBACKS :=
      some [Slot.ptr (some sampleAny), Slot.indeterminate, Slot.ptr (some sampleError)],
    trace := worldAfterFailedRealloc.trace ++
      [Effect.lock, Effect.storeCount 3, Effect.unlock,
       Effect.lock, Effect.storeList
         (some [Slot.ptr (some sampleAny), Slot.indeterminate, Slot.indeterminate]),
       Effect.unlock,
       Effect.lock, Effect.storeSlot 2 (some sampleError), Effect.unlock] }

/-! ## Auxiliary lemmas -/

/-- Handler invocations of a concatenation. -/
theorem invocations_append (a b : List Effect) :
    invocations (a ++ b) = invocations a ++ invocations b := by
  induction a with
  | nil => rfl
  | cons e a ih => cases e <;> simp [invocations, ih]

/-- A sequence made of invocations only is read back unchanged. -/
theorem invocations_map_invoke (l : List (Nat × LogEvent)) :
    invocations (l.map (fun p => Effect.invoke p.1 p.2)) = l := by
  induction l with
  | nil => rfl
  | cons p l ih => simp [invocations, ih]

/-- Lookup of the element that follows a known front part of a mapped list. -/
theorem getElem?_map_append_cons {α β : Type} (g : α → β) (pre : List α) (c : α)
    (rest : List α) : ((pre ++ c :: rest).map g)[pre.length]? = some (g c) := by
  rw [List.getElem?_map, List.getElem?_append_right (le_refl _)]
  simp

/-- The prescribed invocations, one registration at a time. -/
theorem expectedInvocations_cons (ev : LogEvent) (c : LogCallback) (rest : List LogCallback) :
    expectedInvocations ev (c :: rest) =
      (if ev.type = c.type ∨ ev.type = YLOGANY ∨ c.type = YLOGANY then
        (match c.func with
          | none => []
          | some f => [(f, ev)])
       else []) ++ expectedInvocations ev rest := by
  by_cases hm : ev.type = c.type ∨ ev.type = YLOGANY ∨ c.type = YLOGANY
  · cases hf : c.func <;> simp [expectedInvocations, List.filter_cons, hm, hf]
  · simp [expectedInvocations, List.filter_cons, hm]

/-- The prescribed invocations of a concatenation. -/
theorem expectedInvocations_append (ev : LogEvent) (a b : List LogCallback) :
    expectedInvocations ev (a ++ b) = expectedInvocations ev a ++ expectedInvocations ev b := by
  simp [expectedInvocations, List.filter_append, List.filterMap_append]

/-- The dispatch loop over an array of initialised, non-null slots: started at
index `pre.length` with one iteration per remaining registration, it ends
without fault, leaves the registry alone and performs the prescribed
invocations of the remaining registrations. -/
theorem executeLoop_registered (ev : LogEvent) (rest : List LogCallback) :
    ∀ (pre : List LogCallback) (w : World),
      w.YLOG_LOG_CALLBACKS = some ((pre ++ rest).map (fun c => Slot.ptr (some c))) →
      executeLoop ev rest.length pre.length w =
        Except.ok { w with trace := w.trace ++
          (expectedInvocations ev rest).map (fun p => Effect.invoke p.1 p.2) } := by
  induction rest with
  | nil => intro pre w _; simp [executeLoop, expectedInvocations]
  | cons c rest ih =>
    intro pre w hs
    have hread : readSlot w pre.length = Except.ok (some c) := by
      simp only [readSlot, hs, getElem?_map_append_cons]
    have hlen : (pre ++ [c]).length = pre.length + 1 := by simp
    have step : ∀ t, executeLoop ev rest.length (pre.length + 1) { w with trace := t } =
        Except.ok { w with trace := t ++
          (expectedInvocations ev rest).map (fun p => Effect.invoke p.1 p.2) } := by
      intro t
      have := ih (pre ++ [c]) { w with trace := t } (by simpa using hs)
      rw [hlen] at this
      exact this
    have step0 := step w.trace
    simp only [List.length_cons, executeLoop, hread, expectedInvocations_cons]
    by_cases hm : ev.type = c.type ∨ ev.type = YLOGANY ∨ c.type = YLOGANY
    · cases hf : c.func with
      | none =>
        simp only [hm, not_true_eq_false, if_false, if_true]
        rw [step0]; simp
      | some f =>
        simp only [hm, not_true_eq_false, if_false, if_true, emit]
        rw [step]; simp
    · simp only [hm, not_false_eq_true, if_true, if_false]
      rw [step0]; simp

/-- `YlogExecuteEvent` on a registry that holds exactly `cbs`. -/
theorem executeEvent_registered (ev : LogEvent) (cbs : List LogCallback) (w : World)
    (hinv : Registered cbs w) :
    YlogExecuteEvent (some ev) w =
      Except.ok { w with trace := w.trace ++ [Effect.lock] ++
        (expectedInvocations ev cbs).map (fun p => Effect.invoke p.1 p.2) ++
        [Effect.freeEvent ev, Effect.unlock] } := by
  obtain ⟨hc, hst⟩ := hinv
  rcases hst with hst | ⟨hnil, hst⟩
  · have := executeLoop_registered ev cbs [] (Ylog_Lock_Thread w)
      (by simpa [Ylog_Lock_Thread, emit] using hst)
    simp only [List.length_nil] at this
    simp [YlogExecuteEvent, Ylog_Lock_Thread, Ylog_Unlock_Thread, emit, hc] at this ⊢
    simp [this]
  · subst hnil
    simp [YlogExecuteEvent, Ylog_Lock_Thread, Ylog_Unlock_Thread, emit, hc, executeLoop,
      expectedInvocations]

/-- `Ylog_Alloc_Log_Callback_List` when the storage is `NULL` and the count
is at least 1. -/
theorem alloc_of_null (alloc : Bool) (w : World) (hs : w.YLOG_LOG_CALLBACKS = none)
    (hc : 1 ≤ w.YLOG_CALLBACK_COUNT) :
    Ylog_Alloc_Log_Callback_List alloc w =
      if alloc then
        Except.ok (YLOG_SUCCESS,
          { YLOG_CALLBACK_COUNT := w.YLOG_CALLBACK_COUNT,
            YLOG_LOG_CALLBACKS :=
              some (List.replicate w.YLOG_CALLBACK_COUNT.toNat Slot.indeterminate),
            trace := w.trace ++ [Effect.lock,
              Effect.storeList (some (List.replicate w.YLOG_CALLBACK_COUNT.toNat Slot.indeterminate)),
              Effect.unlock] })
      else
        Except.ok (YLOG_FAILURE,
          { YLOG_CALLBACK_COUNT := w.YLOG_CALLBACK_COUNT,
            YLOG_LOG_CALLBACKS := none,
            trace := w.trace ++ [Effect.lock, Effect.storeList none, Effect.unlock] }) := by
  have hn : ¬ w.YLOG_CALLBACK_COUNT < 1 := by omega
  cases alloc <;>
    simp [Ylog_Alloc_Log_Callback_List, hs, Ylog_Lock_Thread, Ylog_Unlock_Thread, emit, setList,
      mallocList, hn]

/-- `Ylog_Realloc_Log_Callback_List` when the count is at least 1. -/
theorem realloc_of_positive (alloc : Bool) (w : World) (hc : 1 ≤ w.YLOG_CALLBACK_COUNT) :
    Ylog_Realloc_Log_Callback_List alloc w =
      match w.YLOG_LOG_CALLBACKS with
      | none => Ylog_Alloc_Log_Callback_List alloc w
      | some slots =>
        if alloc then
          Except.ok (YLOG_SUCCESS,
            { YLOG_CALLBACK_COUNT := w.YLOG_CALLBACK_COUNT,
              YLOG_LOG_CALLBACKS := reallocList true slots w.YLOG_CALLBACK_COUNT,
              trace := w.trace ++ [Effect.lock,
                Effect.storeList (reallocList true slots w.YLOG_CALLBACK_COUNT),
                Effect.unlock] })
        else
          Except.ok (YLOG_FAILURE,
            { YLOG_CALLBACK_COUNT := w.YLOG_CALLBACK_COUNT,
              YLOG_LOG_CALLBACKS := some slots,
              trace := w.trace ++ [Effect.lock, Effect.unlock] }) := by
  have hn : ¬ w.YLOG_CALLBACK_COUNT < 1 := by omega
  cases hs : w.YLOG_LOG_CALLBACKS with
  | none => simp [Ylog_Realloc_Log_Callback_List, hn, hs]
  | some slots =>
    cases alloc <;>
      simp [Ylog_Realloc_Log_Callback_List, hn, hs, Ylog_Lock_Thread, Ylog_Unlock_Thread, emit,
        setList, reallocList]

/-- `Ylog_Log_Callback_Increase` when the count is not negative. -/
theorem increase_of_nonneg (alloc : Bool) (w : World) (hc : 0 ≤ w.YLOG_CALLBACK_COUNT) :
    Ylog_Log_Callback_Increase alloc w =
      if w.YLOG_CALLBACK_COUNT = INT_MAX then Except.error Fault.signedOverflow
      else Ylog_Realloc_Log_Callback_List alloc
        { YLOG_CALLBACK_COUNT := w.YLOG_CALLBACK_COUNT + 1,
          YLOG_LOG_CALLBACKS := w.YLOG_LOG_CALLBACKS,
          trace := w.trace ++ [Effect.lock, Effect.storeCount (w.YLOG_CALLBACK_COUNT + 1),
            Effect.unlock] } := by
  have hn : ¬ w.YLOG_CALLBACK_COUNT < 0 := by omega
  simp [Ylog_Log_Callback_Increase, Ylog_Lock_Thread, Ylog_Unlock_Thread, emit, setCount, hn]

/-- One successful `YlogAddCallback` on a registry holding `cbs`: the argument
is a valid callback and the registry then holds `cbs` followed by it. -/
theorem addCallback_registered (alloc : Bool) (cb : Option LogCallback) (w w2 : World)
    (cbs : List LogCallback) (hinv : Registered cbs w)
    (h : YlogAddCallback alloc cb w = Except.ok (YLOG_SUCCESS, w2)) :
    ∃ c f, cb = some c ∧ c.func = some f ∧ Registered (cbs ++ [c]) w2 := by
  obtain ⟨hc, hst⟩ := hinv
  cases cb with
  | none => simp [YlogAddCallback, YLOG_FAILURE, YLOG_SUCCESS] at h
  | some c =>
    cases hf : c.func with
    | none => simp [YlogAddCallback, YLOG_FAILURE, YLOG_SUCCESS, hf] at h
    | some f =>
      refine ⟨c, f, rfl, hf, ?_⟩
      have h0 : 0 ≤ w.YLOG_CALLBACK_COUNT := by omega
      simp only [YlogAddCallback, hf, Option.isNone_some, Bool.false_eq_true, if_false,
        increase_of_nonneg alloc w h0] at h
      by_cases hmax : w.YLOG_CALLBACK_COUNT = INT_MAX
      · simp [hmax] at h
      · simp only [hmax, if_false] at h
        rw [realloc_of_positive alloc _ (by simp; omega)] at h
        rcases hst with hst | ⟨hnil, hst⟩
        · cases alloc with
          | false => simp [hst, YLOG_FAILURE, YLOG_SUCCESS] at h
          | true =>
            simp [hst, YLOG_FAILURE, YLOG_SUCCESS, reallocList, Ylog_Lock_Thread,
              Ylog_Unlock_Thread, emit, writeSlot, hc] at h
            subst h
            simp [Registered, List.take_of_length_le]
        · subst hnil
          simp only [hst] at h
          rw [alloc_of_null alloc _ rfl (by simp; omega)] at h
          cases alloc with
          | false => simp [YLOG_FAILURE, YLOG_SUCCESS] at h
          | true =>
            simp [YLOG_FAILURE, YLOG_SUCCESS, Ylog_Lock_Thread,
              Ylog_Unlock_Thread, emit, writeSlot, hc] at h
            subst h
            simp [Registered, List.take_of_length_le]

/-- A sequence of `YlogAddCallback` calls that all report success, run on a
registry holding `cbs`: every argument is a valid callback and the registry
then holds `cbs` followed by the arguments, in call order. -/
theorem registerAll_registered (reqs : List (Bool × Option LogCallback)) :
    ∀ (cbs : List LogCallback) (w w2 : World) (rets : List Int),
      Registered cbs w → registerAll reqs w = Except.ok (rets, w2) →
      (∀ r ∈ rets, r = YLOG_SUCCESS) →
      ∃ added : List LogCallback,
        reqs.map (fun q => q.2) = added.map some ∧ (∀ c ∈ added, ∃ f, c.func = some f)
          ∧ Registered (cbs ++ added) w2 := by
  induction reqs with
  | nil =>
    intro cbs w w2 rets hinv h _
    simp [registerAll] at h
    exact ⟨[], by simp, by simp, by simpa [← h.2] using hinv⟩
  | cons q reqs ih =>
    intro cbs w w2 rets hinv h hok
    obtain ⟨alloc, cb⟩ := q
    simp only [registerAll] at h
    cases h1 : YlogAddCallback alloc cb w with
    | error e => simp [h1] at h
    | ok p =>
      obtain ⟨r, w1⟩ := p
      simp only [h1] at h
      cases h2 : registerAll reqs w1 with
      | error e => simp [h2] at h
      | ok p2 =>
        obtain ⟨rs, w3⟩ := p2
        simp only [h2, Except.ok.injEq, Prod.mk.injEq] at h
        obtain ⟨hr, hw⟩ := h
        subst hr hw
        have hr : r = YLOG_SUCCESS := hok r (by simp)
        subst hr
        obtain ⟨c, f, hcb, hf, hinv1⟩ := addCallback_registered alloc cb w w1 cbs hinv h1
        obtain ⟨added, hmap, hall, hinv2⟩ :=
          ih (cbs ++ [c]) w1 w3 rs hinv1 h2 (fun r hr => hok r (by simp [hr]))
        refine ⟨c :: added, by simp [hcb, hmap], ?_, by simpa using hinv2⟩
        intro x hx
        rcases List.mem_cons.mp hx with hx | hx
        · exact ⟨f, by rw [hx]; exact hf⟩
        · exact hall x hx

/-- The initial registry holds no registration. -/
theorem registered_initial (t : List Effect) : Registered [] (World.initial t) := by
  simp [Registered, World.initial]

/-- A registry built by `registryOf` holds the registrations it was built from. -/
theorem registered_registryOf (cbs : List LogCallback) (t : List Effect) :
    Registered cbs (registryOf cbs t) := by
  simp [Registered, registryOf]

/-- When every registration has a handler, pairing handlers with the event
drops nothing. -/
theorem handlers_of_registered (ev : LogEvent) (l : List LogCallback)
    (hall : ∀ c ∈ l, ∃ f, c.func = some f) :
    (l.filterMap (fun cb => cb.func.map (fun f => (f, ev)))).map (fun p => (some p.1, p.2))
      = l.map (fun cb => (cb.func, ev)) := by
  induction l with
  | nil => rfl
  | cons c l ih =>
    obtain ⟨f, hf⟩ := hall c (by simp)
    have := ih (fun c hc => hall c (by simp [hc]))
    simp [List.filterMap_cons, hf, this]

/-- The release loop never changes the count or the storage pointer. -/
theorem freeLoop_frame (k : Nat) :
    ∀ (i : Nat) (w w1 : World), freeLoop k i w = Except.ok w1 →
      w1.YLOG_CALLBACK_COUNT = w.YLOG_CALLBACK_COUNT
        ∧ w1.YLOG_LOG_CALLBACKS = w.YLOG_LOG_CALLBACKS := by
  induction k with
  | zero => intro i w w1 h; simp [freeLoop] at h; simp [← h]
  | succ k ih =>
    intro i w w1 h
    simp only [freeLoop] at h
    cases hr : readSlot w i with
    | error e => simp [hr] at h
    | ok p =>
      cases p with
      | none =>
        simp only [hr] at h
        exact ih _ _ _ h
      | some cb =>
        simp only [hr] at h
        have := ih _ _ _ h
        simpa [emit] using this

/-- `Ylog_Free_Log_Callback_List` when the storage is `NULL`: the guard at
line 221 returns after the lock and unlock calls. -/
theorem free_of_null (w : World) (hs : w.YLOG_LOG_CALLBACKS = none) :
    Ylog_Free_Log_Callback_List w =
      Except.ok { w with trace := w.trace ++ [Effect.lock, Effect.unlock] } := by
  simp [Ylog_Free_Log_Callback_List, Ylog_Lock_Thread, Ylog_Unlock_Thread, emit, hs]

/-- The registry after `Ylog_Free_Log_Callback_List` has returned. -/
theorem free_result (w w1 : World) (h : Ylog_Free_Log_Callback_List w = Except.ok w1) :
    w1.YLOG_LOG_CALLBACKS = none
      ∧ (w.YLOG_LOG_CALLBACKS ≠ none → w1.YLOG_CALLBACK_COUNT = 0)
      ∧ (w.YLOG_LOG_CALLBACKS = none → w1.YLOG_CALLBACK_COUNT = w.YLOG_CALLBACK_COUNT) := by
  cases hs : w.YLOG_LOG_CALLBACKS with
  | none =>
    rw [free_of_null w hs] at h
    simp at h
    simp [← h, hs]
  | some slots =>
    simp only [Ylog_Free_Log_Callback_List, Ylog_Lock_Thread, emit, hs] at h
    cases hl : freeLoop w.YLOG_CALLBACK_COUNT.toNat 0
        { YLOG_CALLBACK_COUNT := w.YLOG_CALLBACK_COUNT, YLOG_LOG_CALLBACKS := some slots,
          trace := w.trace ++ [Effect.lock] } with
    | error e => simp [hl] at h
    | ok w2 =>
      simp [hl, Ylog_Unlock_Thread, emit, setCount, setList] at h
      simp [← h]

/-- `Ylog_Free_Log_Callback_List` returns whenever the count is zero or below:
the loop of lines 222-226 then runs no iteration, so no callback is freed. -/
theorem free_of_nonpositive (w : World) (hc : w.YLOG_CALLBACK_COUNT < 1) :
    ∃ w1, Ylog_Free_Log_Callback_List w = Except.ok w1 := by
  have h0 : w.YLOG_CALLBACK_COUNT.toNat = 0 := by omega
  cases hs : w.YLOG_LOG_CALLBACKS with
  | none => exact ⟨_, free_of_null w hs⟩
  | some slots =>
    simp [Ylog_Free_Log_Callback_List, Ylog_Lock_Thread, emit, hs, h0, freeLoop]

/-- The effects since `w` when the later trace extends the earlier one. -/
theorem effectsSince_of_trace (w w2 : World) (es : List Effect)
    (h : w2.trace = w.trace ++ es) : effectsSince w w2 = es := by
  simp [effectsSince, h]

/-- The scan of a concatenation continues from where the first part ends. -/
theorem lockScan_append (a b : List Effect) :
    ∀ held : Bool, lockScan held (a ++ b) = (lockScan held a).bind (fun h2 => lockScan h2 b) := by
  induction a with
  | nil => intro held; simp [lockScan]
  | cons e a ih =>
    intro held
    cases e <;> cases held <;> simp [lockScan, ih]

/-- Quiet effects leave the scan where it is. -/
theorem lockScan_quiet (es : List Effect) :
    ∀ held : Bool, quiet es = true → lockScan held es = some held := by
  induction es with
  | nil => intro held _; rfl
  | cons e es ih =>
    intro held hq
    cases e <;> simp [quiet] at hq <;> simp [lockScan, ih held hq]

/-- Quiet effects concatenate. -/
theorem quiet_append (a b : List Effect) (ha : quiet a = true) (hb : quiet b = true) :
    quiet (a ++ b) = true := by
  induction a with
  | nil => simpa using hb
  | cons e a ih =>
    cases e <;> simp [quiet] at ha <;> simp [quiet, ih ha]

/-- A scan that succeeds gives the three observations used in the claims:
stores happen at positive depth, the lock is never nested, and lock and
unlock calls balance up to the lock state at both ends. -/
theorem lockScan_sound (es : List Effect) :
    ∀ held h2 : Bool, lockScan held es = some h2 →
      storesUnderLock (if held then 1 else 0) es = true
        ∧ lockNeverNested held es = true
        ∧ lockCalls es + (if held then 1 else 0) = unlockCalls es + (if h2 then 1 else 0) := by
  induction es with
  | nil =>
    intro held h2 h
    simp [lockScan] at h
    simp [storesUnderLock, lockNeverNested, lockCalls, unlockCalls, h]
  | cons e es ih =>
    intro held h2 h
    cases e <;> cases held <;> simp [lockScan] at h <;>
      obtain ⟨a1, a2, a3⟩ := ih _ _ h <;>
      refine ⟨by simpa [storesUnderLock] using a1, by simpa [lockNeverNested] using a2, ?_⟩ <;>
      simp only [lockCalls, unlockCalls] at a3 ⊢ <;>
      simp at a3 ⊢ <;>
      omega

/-- Two disciplined runs in a row form a disciplined run. -/
theorem lockScan_trans (w w1 w2 : World) (a b : List Effect)
    (h1 : w1.trace = w.trace ++ a) (h2 : w2.trace = w1.trace ++ b)
    (ha : lockScan false a = some false) (hb : lockScan false b = some false) :
    w2.trace = w.trace ++ (a ++ b) ∧ lockScan false (a ++ b) = some false := by
  refine ⟨by rw [h2, h1, List.append_assoc], ?_⟩
  rw [lockScan_append, ha]
  simpa using hb

/-- The release loop only adds quiet effects. -/
theorem freeLoop_trace (k : Nat) :
    ∀ (i : Nat) (w w1 : World), freeLoop k i w = Except.ok w1 →
      ∃ es, w1.trace = w.trace ++ es ∧ quiet es = true := by
  induction k with
  | zero => intro i w w1 h; simp [freeLoop] at h; exact ⟨[], by simp [← h], rfl⟩
  | succ k ih =>
    intro i w w1 h
    simp only [freeLoop] at h
    cases hr : readSlot w i with
    | error e => simp [hr] at h
    | ok p =>
      cases p with
      | none =>
        simp only [hr] at h
        exact ih _ _ _ h
      | some cb =>
        simp only [hr] at h
        obtain ⟨es, h1, h2⟩ := ih _ _ _ h
        refine ⟨Effect.freeCallback cb :: es, ?_, by simpa [quiet] using h2⟩
        simpa [emit] using h1

/-- The dispatch loop leaves the registry alone and only adds quiet effects,
none of them a `free`. -/
theorem executeLoop_trace (ev : LogEvent) (k : Nat) :
    ∀ (i : Nat) (w w1 : World), executeLoop ev k i w = Except.ok w1 →
      w1.YLOG_CALLBACK_COUNT = w.YLOG_CALLBACK_COUNT
        ∧ w1.YLOG_LOG_CALLBACKS = w.YLOG_LOG_CALLBACKS
        ∧ ∃ es, w1.trace = w.trace ++ es ∧ quiet es = true ∧ releases es = [] := by
  induction k with
  | zero =>
    intro i w w1 h; simp [executeLoop] at h
    exact ⟨by simp [← h], by simp [← h], [], by simp [← h], rfl, rfl⟩
  | succ k ih =>
    intro i w w1 h
    simp only [executeLoop] at h
    cases hr : readSlot w i with
    | error e => simp [hr] at h
    | ok p =>
      cases p with
      | none => simp [hr] at h
      | some cb =>
        simp only [hr] at h
        by_cases hm : ev.type = cb.type ∨ ev.type = YLOGANY ∨ cb.type = YLOGANY
        · simp only [hm, not_true_eq_false, if_false] at h
          cases hf : cb.func with
          | none =>
            simp only [hf] at h
            exact ih _ _ _ h
          | some f =>
            simp only [hf] at h
            obtain ⟨c1, c2, es, h1, h2, h3⟩ := ih _ _ _ h
            refine ⟨by simpa [emit] using c1, by simpa [emit] using c2,
              Effect.invoke f ev :: es, ?_, by simpa [quiet] using h2,
              by simpa [releases] using h3⟩
            simpa [emit] using h1
        · simp only [hm, not_false_eq_true, if_true] at h
          exact ih _ _ _ h

/-- `Ylog_Free_Log_Callback_List` is disciplined on every returning path. -/
theorem free_disciplined (w w1 : World) (h : Ylog_Free_Log_Callback_List w = Except.ok w1) :
    ∃ es, w1.trace = w.trace ++ es ∧ lockScan false es = some false := by
  cases hs : w.YLOG_LOG_CALLBACKS with
  | none =>
    rw [free_of_null w hs] at h
    simp at h
    exact ⟨[Effect.lock, Effect.unlock], by simp [← h], rfl⟩
  | some slots =>
    simp only [Ylog_Free_Log_Callback_List, Ylog_Lock_Thread, emit, hs] at h
    cases hl : freeLoop w.YLOG_CALLBACK_COUNT.toNat 0
        { YLOG_CALLBACK_COUNT := w.YLOG_CALLBACK_COUNT, YLOG_LOG_CALLBACKS := some slots,
          trace := w.trace ++ [Effect.lock] } with
    | error e => simp [hl] at h
    | ok w2 =>
      obtain ⟨es, h1, h2⟩ := freeLoop_trace _ _ _ _ hl
      simp [hl, Ylog_Unlock_Thread, emit, setCount, setList] at h
      refine ⟨[Effect.lock] ++ es ++ [Effect.freeList slots, Effect.storeCount 0,
        Effect.storeList none, Effect.unlock], ?_, ?_⟩
      · simp at h1
        simp [← h, h1]
      · rw [List.append_assoc, lockScan_append]
        simp only [lockScan, Bool.false_eq_true, if_false, Option.bind]
        rw [lockScan_append, lockScan_quiet es true h2]
        simp [lockScan]

/-- `Ylog_Alloc_Log_Callback_List` is disciplined on every returning path. -/
theorem alloc_disciplined (alloc : Bool) (w w1 : World) (r : Int)
    (h : Ylog_Alloc_Log_Callback_List alloc w = Except.ok (r, w1)) :
    ∃ es, w1.trace = w.trace ++ es ∧ lockScan false es = some false := by
  simp only [Ylog_Alloc_Log_Callback_List] at h
  cases hf : (if w.YLOG_LOG_CALLBACKS.isSome = true then Ylog_Free_Log_Callback_List w
      else Except.ok w) with
  | error e => simp [hf] at h
  | ok w0 =>
    have h0 : ∃ es, w0.trace = w.trace ++ es ∧ lockScan false es = some false := by
      by_cases hsome : w.YLOG_LOG_CALLBACKS.isSome = true
      · simp only [hsome, if_true] at hf
        exact free_disciplined w w0 hf
      · simp only [hsome] at hf
        simp at hf
        exact ⟨[], by simp [← hf], rfl⟩
    obtain ⟨es0, t0, s0⟩ := h0
    simp only [hf] at h
    by_cases hc : w0.YLOG_CALLBACK_COUNT < 1
    · simp [Ylog_Lock_Thread, Ylog_Unlock_Thread, emit, hc] at h
      have := lockScan_trans w w0 w1 es0 [Effect.lock, Effect.unlock] t0
        (by simp [← h.2]) s0 rfl
      exact ⟨_, this.1, this.2⟩
    · cases alloc <;>
        simp [Ylog_Lock_Thread, Ylog_Unlock_Thread, emit, hc, setList, mallocList] at h
      · have := lockScan_trans w w0 w1 es0
          [Effect.lock, Effect.storeList none, Effect.unlock] t0 (by simp [← h.2]) s0 rfl
        exact ⟨_, this.1, this.2⟩
      · have := lockScan_trans w w0 w1 es0
          [Effect.lock, Effect.storeList
            (some (List.replicate w0.YLOG_CALLBACK_COUNT.toNat Slot.indeterminate)),
            Effect.unlock] t0 (by simp [← h.2]) s0 rfl
        exact ⟨_, this.1, this.2⟩

/-- `Ylog_Realloc_Log_Callback_List` is disciplined on every returning path. -/
theorem realloc_disciplined (alloc : Bool) (w w1 : World) (r : Int)
    (h : Ylog_Realloc_Log_Callback_List alloc w = Except.ok (r, w1)) :
    ∃ es, w1.trace = w.trace ++ es ∧ lockScan false es = some false := by
  by_cases hc : w.YLOG_CALLBACK_COUNT < 1
  · simp only [Ylog_Realloc_Log_Callback_List, hc, if_true] at h
    cases hf : Ylog_Free_Log_Callback_List w with
    | error e => simp [hf] at h
    | ok w0 =>
      simp [hf] at h
      rw [← h.2]
      exact free_disciplined w w0 hf
  · rw [realloc_of_positive alloc w (by omega)] at h
    cases hs : w.YLOG_LOG_CALLBACKS with
    | none =>
      simp only [hs] at h
      exact alloc_disciplined alloc w w1 r h
    | some slots =>
      simp only [hs] at h
      cases alloc <;> simp at h
      · exact ⟨[Effect.lock, Effect.unlock], by simp [← h.2], rfl⟩
      · exact ⟨[Effect.lock, Effect.storeList (reallocList true slots w.YLOG_CALLBACK_COUNT),
          Effect.unlock], by simp [← h.2], rfl⟩

/-- `Ylog_Log_Callback_Increase` below `INT_MAX`: the locked increment, with
the clamp of a negative count, followed by the resize. -/
theorem increase_unfold (alloc : Bool) (w : World) (hc : w.YLOG_CALLBACK_COUNT < INT_MAX) :
    Ylog_Log_Callback_Increase alloc w =
      Ylog_Realloc_Log_Callback_List alloc
        { YLOG_CALLBACK_COUNT := max w.YLOG_CALLBACK_COUNT 0 + 1,
          YLOG_LOG_CALLBACKS := w.YLOG_LOG_CALLBACKS,
          trace := w.trace ++ ([Effect.lock]
            ++ (if w.YLOG_CALLBACK_COUNT < 0 then [Effect.storeCount 0] else [])
            ++ [Effect.storeCount (max w.YLOG_CALLBACK_COUNT 0 + 1), Effect.unlock]) } := by
  by_cases hn : w.YLOG_CALLBACK_COUNT < 0
  · have hmax : max w.YLOG_CALLBACK_COUNT 0 = 0 := by omega
    simp [Ylog_Log_Callback_Increase, Ylog_Lock_Thread, Ylog_Unlock_Thread, emit, setCount, hn,
      hmax, INT_MAX]
  · have hmax : max w.YLOG_CALLBACK_COUNT 0 = w.YLOG_CALLBACK_COUNT := by omega
    have hne : ¬ w.YLOG_CALLBACK_COUNT = INT_MAX := by omega
    simp [Ylog_Log_Callback_Increase, Ylog_Lock_Thread, Ylog_Unlock_Thread, emit, setCount, hn,
      hmax, hne]

/-- `Ylog_Log_Callback_Increase` is disciplined on every returning path. -/
theorem increase_disciplined (alloc : Bool) (w w1 : World) (r : Int)
    (h : Ylog_Log_Callback_Increase alloc w = Except.ok (r, w1)) :
    ∃ es, w1.trace = w.trace ++ es ∧ lockScan false es = some false := by
  by_cases hc : w.YLOG_CALLBACK_COUNT < INT_MAX
  · rw [increase_unfold alloc w hc] at h
    obtain ⟨es, h1, h2⟩ := realloc_disciplined alloc _ w1 r h
    have := lockScan_trans w _ w1 _ es rfl h1 (by
      by_cases hn : w.YLOG_CALLBACK_COUNT < 0 <;> simp [hn, lockScan]) h2
    exact ⟨_, this.1, this.2⟩
  · have h0 : 0 ≤ w.YLOG_CALLBACK_COUNT := by simp only [INT_MAX] at hc; omega
    rw [increase_of_nonneg alloc w h0] at h
    by_cases hmax : w.YLOG_CALLBACK_COUNT = INT_MAX
    · simp [hmax] at h
    · simp only [hmax, if_false] at h
      obtain ⟨es, h1, h2⟩ := realloc_disciplined alloc _ w1 r h
      have := lockScan_trans w _ w1
        [Effect.lock, Effect.storeCount (w.YLOG_CALLBACK_COUNT + 1), Effect.unlock] es rfl h1
        rfl h2
      exact ⟨_, this.1, this.2⟩

/-- `YlogAddCallback` is disciplined on every returning path. -/
theorem addCallback_disciplined (alloc : Bool) (cb : Option LogCallback) (w w1 : World) (r : Int)
    (h : YlogAddCallback alloc cb w = Except.ok (r, w1)) :
    ∃ es, w1.trace = w.trace ++ es ∧ lockScan false es = some false := by
  cases cb with
  | none =>
    simp [YlogAddCallback] at h
    exact ⟨[], by simp [← h.2], rfl⟩
  | some c =>
    cases hf : c.func with
    | none =>
      simp [YlogAddCallback, hf] at h
      exact ⟨[], by simp [← h.2], rfl⟩
    | some f =>
      simp only [YlogAddCallback, hf, Option.isNone_some, Bool.false_eq_true, if_false] at h
      cases hi : Ylog_Log_Callback_Increase alloc w with
      | error e => simp [hi] at h
      | ok p =>
        obtain ⟨r0, w0⟩ := p
        obtain ⟨es0, t0, s0⟩ := increase_disciplined alloc w w0 r0 hi
        simp only [hi] at h
        by_cases hr : r0 = 0
        · simp [hr] at h
          exact ⟨es0, by rw [← h.2]; exact t0, s0⟩
        · simp only [hr, if_false] at h
          cases hw : writeSlot ((Ylog_Lock_Thread w0).YLOG_CALLBACK_COUNT - 1) (some c)
              (Ylog_Lock_Thread w0) with
          | error e => simp [hw] at h
          | ok w2 =>
            simp [hw] at h
            simp only [writeSlot, Ylog_Lock_Thread, emit] at hw
            cases hs : w0.YLOG_LOG_CALLBACKS with
            | none => simp [hs] at hw
            | some slots =>
              simp only [hs] at hw
              split at hw
              · simp at hw
                have := lockScan_trans w w0 w1 es0
                  [Effect.lock, Effect.storeSlot (w0.YLOG_CALLBACK_COUNT - 1) (some c),
                    Effect.unlock] t0
                  (by simp [← h.2, ← hw, Ylog_Unlock_Thread, emit]) s0 rfl
                exact ⟨_, this.1, this.2⟩
              · simp at hw

/-- `YlogExecuteEvent` is disciplined on every returning path. -/
theorem executeEvent_disciplined (ev : Option LogEvent) (w w1 : World)
    (h : YlogExecuteEvent ev w = Except.ok w1) :
    ∃ es, w1.trace = w.trace ++ es ∧ lockScan false es = some false := by
  cases ev with
  | none =>
    simp [YlogExecuteEvent] at h
    exact ⟨[], by simp [← h], rfl⟩
  | some e =>
    simp only [YlogExecuteEvent] at h
    cases hl : executeLoop e (Ylog_Lock_Thread w).YLOG_CALLBACK_COUNT.toNat 0
        (Ylog_Lock_Thread w) with
    | error f => simp [hl] at h
    | ok w2 =>
      obtain ⟨_, _, es, h1, h2, _⟩ := executeLoop_trace e _ _ _ _ hl
      simp [hl, Ylog_Unlock_Thread, emit] at h
      refine ⟨[Effect.lock] ++ es ++ [Effect.freeEvent e, Effect.unlock], ?_, ?_⟩
      · simp [Ylog_Lock_Thread, emit] at h1
        simp [← h, h1]
      · rw [List.append_assoc, lockScan_append]
        simp only [lockScan, Bool.false_eq_true, if_false, Option.bind]
        rw [lockScan_append, lockScan_quiet es true h2]
        simp [lockScan]

/-- The `free` calls of a concatenation. -/
theorem releases_append (a b : List Effect) :
    releases (a ++ b) = releases a ++ releases b := by
  induction a with
  | nil => rfl
  | cons e a ih => cases e <;> simp [releases, ih]

/-- Handler invocations are no `free` calls. -/
theorem releases_map_invoke (l : List (Nat × LogEvent)) :
    releases (l.map (fun p => Effect.invoke p.1 p.2)) = [] := by
  induction l with
  | nil => rfl
  | cons p l ih => simp [releases, ih]

/-- A release of a message buffer among the effects shows among the `free`
calls. -/
theorem mem_releases (m : CharPtr) (es : List Effect) (h : Effect.freeMessage m ∈ es) :
    Effect.freeMessage m ∈ releases es := by
  induction es with
  | nil => simp at h
  | cons e es ih =>
    rcases List.mem_cons.mp h with h1 | h1
    · subst h1; simp [releases]
    · have := ih h1
      cases e <;> simp [releases, this]

/-- The only `free` call of a returning `YlogExecuteEvent` on a non-null event
is `free(ev)`. -/
theorem executeEvent_releases (e : LogEvent) (w w1 : World)
    (h : YlogExecuteEvent (some e) w = Except.ok w1) :
    releases (effectsSince w w1) = [Effect.freeEvent e] := by
  simp only [YlogExecuteEvent] at h
  cases hl : executeLoop e (Ylog_Lock_Thread w).YLOG_CALLBACK_COUNT.toNat 0
      (Ylog_Lock_Thread w) with
  | error f => simp [hl] at h
  | ok w2 =>
    obtain ⟨_, _, es, h1, _, h3⟩ := executeLoop_trace e _ _ _ _ hl
    simp [hl, Ylog_Unlock_Thread, emit] at h
    simp [Ylog_Lock_Thread, emit] at h1
    have : effectsSince w w1 = [Effect.lock] ++ es ++ [Effect.freeEvent e, Effect.unlock] :=
      effectsSince_of_trace w w1 _ (by simp [← h, h1])
    rw [this, releases_append, releases_append, h3]
    simp [releases]

/-- In a disciplined run every store happens under the lock. -/
theorem stores_of_disciplined (w w2 : World)
    (h : ∃ es, w2.trace = w.trace ++ es ∧ lockScan false es = some false) :
    storesUnderLock 0 (effectsSince w w2) = true := by
  obtain ⟨es, h1, h2⟩ := h
  rw [effectsSince_of_trace w w2 es h1]
  simpa using (lockScan_sound es false false h2).1

/-- In a disciplined run lock and unlock calls balance and never nest. -/
theorem balance_of_disciplined (w w2 : World)
    (h : ∃ es, w2.trace = w.trace ++ es ∧ lockScan false es = some false) :
    lockCalls (effectsSince w w2) = unlockCalls (effectsSince w w2)
      ∧ lockNeverNested false (effectsSince w w2) = true := by
  obtain ⟨es, h1, h2⟩ := h
  rw [effectsSince_of_trace w w2 es h1]
  obtain ⟨_, a2, a3⟩ := lockScan_sound es false false h2
  exact ⟨by simpa using a3, a2⟩

/-- `Ylog_Realloc_Log_Callback_List` with a count of at least 1 always
returns, keeps the count and stores nothing to it. -/
theorem realloc_positive_result (alloc : Bool) (w : World) (hc : 1 ≤ w.YLOG_CALLBACK_COUNT) :
    ∃ r w2 rest, Ylog_Realloc_Log_Callback_List alloc w = Except.ok (r, w2)
      ∧ w2.trace = w.trace ++ rest
      ∧ (∀ v, Effect.storeCount v ∉ rest)
      ∧ w2.YLOG_CALLBACK_COUNT = w.YLOG_CALLBACK_COUNT := by
  rw [realloc_of_positive alloc w hc]
  cases hs : w.YLOG_LOG_CALLBACKS with
  | none =>
    simp only []
    rw [alloc_of_null alloc w hs hc]
    cases alloc
    · exact ⟨_, _, [Effect.lock, Effect.storeList none, Effect.unlock], rfl, rfl, by simp, rfl⟩
    · exact ⟨_, _, [Effect.lock, Effect.storeList (some (List.replicate
        w.YLOG_CALLBACK_COUNT.toNat Slot.indeterminate)), Effect.unlock], rfl, rfl, by simp,
        rfl⟩
  | some slots =>
    simp only []
    cases alloc
    · exact ⟨_, _, [Effect.lock, Effect.unlock], rfl, rfl, by simp, rfl⟩
    · exact ⟨_, _, [Effect.lock, Effect.storeList (reallocList true slots
        w.YLOG_CALLBACK_COUNT), Effect.unlock], rfl, rfl, by simp, rfl⟩

/-! ## The claims -/

/-- C1: for every event severity `ev.type` and every registration filter `F`
(all integers, so in particular the seven enumerators), `YlogExecuteEvent`
invokes the non-null handler `f` of a registration on the event if and only
if the severity equals the filter, or the severity is `YLOGANY`, or the
filter is `YLOGANY`.  First for a registry holding that registration alone:
the call returns, the invocations it makes are `[(f, ev)]` when the condition
holds and none otherwise.  Then for the registration at any position of a
registry: between the invocations owed to the registrations before it and
those owed to the registrations after it, it contributes one invocation when
the condition holds and none otherwise. -/
theorem C1_handler_fires_iff_match (ev : LogEvent) (F : Int) (f : Nat)
    (pre post : List LogCallback) (t : List Effect) :
    (∃ w2, YlogExecuteEvent (some ev) (registryOf [{ type := F, func := some f }] t)
          = Except.ok w2
        ∧ invocations (effectsSince (registryOf [{ type := F, func := some f }] t) w2)
            = (if ev.type = F ∨ ev.type = YLOGANY ∨ F = YLOGANY then [(f, ev)] else [])
        ∧ ((f, ev) ∈ invocations
              (effectsSince (registryOf [{ type := F, func := some f }] t) w2)
            ↔ (ev.type = F ∨ ev.type = YLOGANY ∨ F = YLOGANY)))
      ∧ (∃ w2, YlogExecuteEvent (some ev)
            (registryOf (pre ++ { type := F, func := some f } :: post) t) = Except.ok w2
          ∧ invocations (effectsSince
              (registryOf (pre ++ { type := F, func := some f } :: post) t) w2)
            = expectedInvocations ev pre
                ++ (if ev.type = F ∨ ev.type = YLOGANY ∨ F = YLOGANY then [(f, ev)] else [])
                ++ expectedInvocations ev post) := by
  have key : ∀ cbs : List LogCallback,
      ∃ w2, YlogExecuteEvent (some ev) (registryOf cbs t) = Except.ok w2
        ∧ invocations (effectsSince (registryOf cbs t) w2) = expectedInvocations ev cbs := by
    intro cbs
    refine ⟨_, executeEvent_registered ev cbs _ (registered_registryOf cbs t), ?_⟩
    simp only [effectsSince, List.append_assoc, List.drop_left]
    rw [invocations_append, invocations_append, invocations_map_invoke]
    simp [invocations]
  constructor
  · obtain ⟨w2, h1, h2⟩ := key [{ type := F, func := some f }]
    refine ⟨w2, h1, ?_, ?_⟩
    · rw [h2, expectedInvocations_cons]
      simp [expectedInvocations]
    · rw [h2, expectedInvocations_cons]
      by_cases hm : ev.type = F ∨ ev.type = YLOGANY ∨ F = YLOGANY
      · simp [expectedInvocations, hm]
      · simp [expectedInvocations, hm]
  · obtain ⟨w2, h1, h2⟩ := key (pre ++ { type := F, func := some f } :: post)
    refine ⟨w2, h1, ?_⟩
    rw [h2, expectedInvocations_append, expectedInvocations_cons]
    simp

/-- C2: for every registry built from the initial registry by registration
calls that all return `YLOG_SUCCESS`, and every non-null event,
`YlogExecuteEvent` returns and the sequence of handler invocations it makes
is the sequence of registrations, in registration order, filtered by the
match condition, each kept registration giving one invocation of its handler
on the event; with no registration at all no handler is invoked. -/
theorem C2_dispatch_in_registration_order (reqs : List (Bool × Option LogCallback))
    (t : List Effect) (rets : List Int) (w : World) (ev : LogEvent)
    (hreg : registerAll reqs (World.initial t) = Except.ok (rets, w))
    (hok : ∀ r ∈ rets, r = YLOG_SUCCESS) :
    ∃ (cbs : List LogCallback) (w2 : World),
      reqs.map (fun q => q.2) = cbs.map some
        ∧ YlogExecuteEvent (some ev) w = Except.ok w2
        ∧ (invocations (effectsSince w w2)).map (fun p => (some p.1, p.2))
            = (cbs.filter (fun cb =>
                decide (ev.type = cb.type ∨ ev.type = YLOGANY ∨ cb.type = YLOGANY))).map
                  (fun cb => (cb.func, ev))
        ∧ (reqs = [] → invocations (effectsSince w w2) = []) := by
  obtain ⟨cbs, hmap, hall, hinv⟩ :=
    registerAll_registered reqs [] (World.initial t) w rets (registered_initial t) hreg hok
  simp only [List.nil_append] at hinv
  have hex := executeEvent_registered ev cbs w hinv
  refine ⟨cbs, _, hmap, hex, ?_, ?_⟩
  · have hsub : ∀ c ∈ cbs.filter (fun cb =>
        decide (ev.type = cb.type ∨ ev.type = YLOGANY ∨ cb.type = YLOGANY)),
        ∃ f, c.func = some f := fun c hc => hall c (List.mem_of_mem_filter hc)
    simp only [effectsSince, List.append_assoc, List.drop_left]
    rw [invocations_append, invocations_append, invocations_map_invoke]
    simp only [invocations, List.nil_append, List.append_nil]
    exact handlers_of_registered ev _ hsub
  · intro hnil
    subst hnil
    have : cbs = [] := by simpa using hmap.symm
    subst this
    simp [effectsSince, expectedInvocations, invocations]

/-- C2, exercised on the scenario of the specification: a wildcard handler and
an `YLOGERROR` handler are registered, then an `YLOGERROR` event is
dispatched. -/
theorem C2_dispatch_in_registration_order_witness :
    registerAll sampleRequests (World.initial []) = Except.ok ([1, 1], sampleWorld)
      ∧ (∀ r ∈ [(1 : Int), 1], r = YLOG_SUCCESS)
      ∧ ∃ (cbs : List LogCallback) (w2 : World),
          sampleRequests.map (fun q => q.2) = cbs.map some
            ∧ YlogExecuteEvent (some sampleEvent) sampleWorld = Except.ok w2
            ∧ (invocations (effectsSince sampleWorld w2)).map (fun p => (some p.1, p.2))
                = (cbs.filter (fun cb => decide (sampleEvent.type = cb.type
                    ∨ sampleEvent.type = YLOGANY ∨ cb.type = YLOGANY))).map
                      (fun cb => (cb.func, sampleEvent))
            ∧ (sampleRequests = [] → invocations (effectsSince sampleWorld w2) = []) :=
  ⟨rfl, by decide,
    C2_dispatch_in_registration_order sampleRequests [] [1, 1] sampleWorld sampleEvent rfl
      (by decide)⟩

/-- C3: starting from the initial registry (count 0, storage `NULL`), after a
sequence of `n` calls of `YlogAddCallback` that all return `YLOG_SUCCESS` the
count is `n`, the storage is `NULL` when `n` is 0 and otherwise is an array
of exactly `n` slots, and for every `i < n` slot `i` holds the pointer passed
to call `i`: nothing is deduplicated, overwritten or reordered. -/
theorem C3_slots_hold_registrations (reqs : List (Bool × Option LogCallback))
    (t : List Effect) (rets : List Int) (w : World)
    (hreg : registerAll reqs (World.initial t) = Except.ok (rets, w))
    (hok : ∀ r ∈ rets, r = YLOG_SUCCESS) :
    w.YLOG_CALLBACK_COUNT = reqs.length
      ∧ (reqs = [] → w.YLOG_LOG_CALLBACKS = none)
      ∧ (reqs ≠ [] → w.YLOG_LOG_CALLBACKS = some (reqs.map (fun q => Slot.ptr q.2)))
      ∧ ∀ (i : Nat) (hi : i < reqs.length), ∃ slots, w.YLOG_LOG_CALLBACKS = some slots
          ∧ slots.length = reqs.length ∧ slots[i]? = some (Slot.ptr (reqs[i]).2) := by
  obtain ⟨cbs, hmap, _, hinv⟩ :=
    registerAll_registered reqs [] (World.initial t) w rets (registered_initial t) hreg hok
  simp only [List.nil_append] at hinv
  obtain ⟨hc, hst⟩ := hinv
  have hlen : reqs.length = cbs.length := by
    have := congrArg List.length hmap
    simpa using this
  have hslots : reqs.map (fun q => Slot.ptr q.2) = cbs.map (fun c => Slot.ptr (some c)) := by
    have := congrArg (List.map Slot.ptr) hmap
    simpa [List.map_map] using this
  have hne : reqs ≠ [] → w.YLOG_LOG_CALLBACKS = some (reqs.map (fun q => Slot.ptr q.2)) := by
    intro hne
    rcases hst with hst | ⟨hnil, _⟩
    · rw [hst, hslots]
    · subst hnil
      simp at hlen
      exact absurd hlen hne
  refine ⟨by rw [hc, hlen], ?_, hne, ?_⟩
  · intro hnil
    subst hnil
    simp [registerAll, World.initial] at hreg
    simp [← hreg.2]
  · intro i hi
    have hne2 : reqs ≠ [] := by
      intro h; subst h; simp at hi
    refine ⟨_, hne hne2, by simp, ?_⟩
    simp [List.getElem?_map, List.getElem?_eq_getElem hi]

/-- C3, exercised on two successful registrations. -/
theorem C3_slots_hold_registrations_witness :
    registerAll sampleRequests (World.initial []) = Except.ok ([1, 1], sampleWorld)
      ∧ (∀ r ∈ [(1 : Int), 1], r = YLOG_SUCCESS)
      ∧ sampleWorld.YLOG_CALLBACK_COUNT = sampleRequests.length
      ∧ (sampleRequests = [] → sampleWorld.YLOG_LOG_CALLBACKS = none)
      ∧ (sampleRequests ≠ [] →
          sampleWorld.YLOG_LOG_CALLBACKS = some (sampleRequests.map (fun q => Slot.ptr q.2)))
      ∧ ∀ (i : Nat) (hi : i < sampleRequests.length), ∃ slots,
          sampleWorld.YLOG_LOG_CALLBACKS = some slots
            ∧ slots.length = sampleRequests.length
            ∧ slots[i]? = some (Slot.ptr (sampleRequests[i]).2) :=
  ⟨rfl, by decide,
    C3_slots_hold_registrations sampleRequests [] [1, 1] sampleWorld rfl (by decide)⟩

/-- C4: `YlogEnumToString` returns "TRACE", "DEBUG", "INFO", "WARN", "ERROR",
"FATAL" for the six levels and "ANY" for the wildcard, and "UNKNOWN" for
every integer below `YLOGTRACE` or above `YLOGANY`. -/
theorem C4_enum_names :
    YlogEnumToString YLOGTRACE = "TRACE" ∧ YlogEnumToString YLOGDEBUG = "DEBUG"
      ∧ YlogEnumToString YLOGINFO = "INFO" ∧ YlogEnumToString YLOGWARN = "WARN"
      ∧ YlogEnumToString YLOGERROR = "ERROR" ∧ YlogEnumToString YLOGFATAL = "FATAL"
      ∧ YlogEnumToString YLOGANY = "ANY"
      ∧ ∀ n : Int, (n < YLOGTRACE ∨ YLOGANY < n) → YlogEnumToString n = "UNKNOWN" := by
  refine ⟨by decide, by decide, by decide, by decide, by decide, by decide, by decide, ?_⟩
  intro n h
  unfold YlogEnumToString
  rw [if_neg]
  simp only [YLOGTRACE, YLOGANY] at *
  omega

/-- C4, exercised on the out-of-range values -1 and 7. -/
theorem C4_enum_names_witness :
    ((-1 : Int) < YLOGTRACE ∨ YLOGANY < (-1 : Int)) ∧ YlogEnumToString (-1) = "UNKNOWN"
      ∧ ((7 : Int) < YLOGTRACE ∨ YLOGANY < (7 : Int)) ∧ YlogEnumToString 7 = "UNKNOWN" :=
  ⟨by decide, C4_enum_names.2.2.2.2.2.2.2 (-1) (by decide),
    by decide, C4_enum_names.2.2.2.2.2.2.2 7 (by decide)⟩

/-- C5: `YlogAddCallback` returns `YLOG_FAILURE` when `cb` is `NULL` and when
the handler of `cb` is `NULL`, whatever the filter and the allocator outcome,
and then nothing has happened: the count, the storage with its slots and the
effect sequence are exactly as before the call. -/
theorem C5_invalid_callback_rejected (alloc : Bool) (w : World) (type : Int) :
    YlogAddCallback alloc none w = Except.ok (YLOG_FAILURE, w)
      ∧ YlogAddCallback alloc (some { type := type, func := none }) w
          = Except.ok (YLOG_FAILURE, w) := by
  constructor <;> simp [YlogAddCallback]

/-- C6: `YlogCreateCallback` returns `NULL` for every filter when the handler
is `NULL`, and leaves the registry as it was; when the handler is set and the
allocation succeeds it returns a callback whose `type` is the given filter
and whose `func` is the given handler, again leaving the registry as it
was. -/
theorem C6_create_callback (alloc : Bool) (type : Int) (f : Nat) (w : World) :
    YlogCreateCallback alloc type none w = (none, w)
      ∧ YlogCreateCallback true type (some f) w = (some { type := type, func := some f }, w) := by
  constructor <;> simp [YlogCreateCallback]

/-- C7: the code at the failing inputs.  A registration whose first allocation
fails returns `YLOG_FAILURE` but leaves the count at 1 where it was 0; a
registration whose reallocation fails returns `YLOG_FAILURE`, keeps the
storage, but leaves the count at 2 where it was 1. -/
theorem C7_failed_growth_keeps_incremented_count :
    YlogAddCallback false (some sampleAny) (World.initial [])
        = Except.ok (YLOG_FAILURE, worldAfterFailedFirstAlloc)
      ∧ (World.initial []).YLOG_CALLBACK_COUNT = 0
      ∧ worldAfterFailedFirstAlloc.YLOG_CALLBACK_COUNT = 1
      ∧ YlogAddCallback true (some sampleAny) (World.initial [])
        = Except.ok (YLOG_SUCCESS, worldAfterOneRegistration)
      ∧ YlogAddCallback false (some sampleError) worldAfterOneRegistration
        = Except.ok (YLOG_FAILURE, worldAfterFailedRealloc)
      ∧ worldAfterOneRegistration.YLOG_CALLBACK_COUNT = 1
      ∧ worldAfterFailedRealloc.YLOG_CALLBACK_COUNT = 2
      ∧ worldAfterFailedRealloc.YLOG_LOG_CALLBACKS
          = worldAfterOneRegistration.YLOG_LOG_CALLBACKS := by
  refine ⟨rfl, rfl, rfl, rfl, rfl, rfl, rfl, rfl⟩

/-- C8: the code at the failing inputs.  After one registration whose first
allocation fails the count is 1 while the storage is `NULL`, and a dispatch
then indexes `NULL`; after a successful registration followed by one whose
reallocation fails the count is 2 while the storage has 1 slot, and a
dispatch then reads past the end of the array. -/
theorem C8_count_and_storage_disagree :
    registerAll [(false, some sampleAny)] (World.initial [])
        = Except.ok ([YLOG_FAILURE], worldAfterFailedFirstAlloc)
      ∧ worldAfterFailedFirstAlloc.YLOG_CALLBACK_COUNT = 1
      ∧ worldAfterFailedFirstAlloc.YLOG_LOG_CALLBACKS = none
      ∧ YlogExecuteEvent (some sampleEvent) worldAfterFailedFirstAlloc
          = Except.error Fault.nullDeref
      ∧ registerAll [(true, some sampleAny), (false, some sampleError)] (World.initial [])
          = Except.ok ([YLOG_SUCCESS, YLOG_FAILURE], worldAfterFailedRealloc)
      ∧ worldAfterFailedRealloc.YLOG_CALLBACK_COUNT = 2
      ∧ worldAfterFailedRealloc.YLOG_LOG_CALLBACKS.map List.length = some 1
      ∧ YlogExecuteEvent (some sampleEvent) worldAfterFailedRealloc
          = Except.error Fault.outOfBounds := by
  refine ⟨rfl, rfl, rfl, rfl, rfl, rfl, rfl, rfl⟩

/-- C9, as stated, fails: in the registry left by a registration whose first
allocation failed (count 1, storage `NULL`), `Ylog_Free_Log_Callback_List`
returns at its `NULL` guard and the count is still 1. -/
theorem C9_free_keeps_count_when_storage_null :
    YlogAddCallback false (some sampleAny) (World.initial [])
        = Except.ok (YLOG_FAILURE, worldAfterFailedFirstAlloc)
      ∧ ∃ w1, Ylog_Free_Log_Callback_List worldAfterFailedFirstAlloc = Except.ok w1
          ∧ ¬ (w1.YLOG_CALLBACK_COUNT = 0 ∧ w1.YLOG_LOG_CALLBACKS = none) := by
  refine ⟨rfl, { worldAfterFailedFirstAlloc with
    trace := worldAfterFailedFirstAlloc.trace ++ [Effect.lock, Effect.unlock] }, rfl, ?_⟩
  decide

/-- C9, amended: whenever `Ylog_Free_Log_Callback_List` returns, the storage
is `NULL` afterwards, and the count is 0 if the storage was allocated before
the call and is left as it was if the storage was already `NULL`.  When the
storage is `NULL` the function always returns, at its guard.  The same holds
for `Ylog_Realloc_Log_Callback_List` called with a count of zero or below,
which always returns and reports success. -/
theorem C9_free_empties_allocated_registry (w : World) :
    (∀ w1, Ylog_Free_Log_Callback_List w = Except.ok w1 →
        w1.YLOG_LOG_CALLBACKS = none
          ∧ (w.YLOG_LOG_CALLBACKS ≠ none → w1.YLOG_CALLBACK_COUNT = 0)
          ∧ (w.YLOG_LOG_CALLBACKS = none → w1.YLOG_CALLBACK_COUNT = w.YLOG_CALLBACK_COUNT))
      ∧ (w.YLOG_LOG_CALLBACKS = none →
          ∃ w1, Ylog_Free_Log_Callback_List w = Except.ok w1
            ∧ w1.YLOG_CALLBACK_COUNT = w.YLOG_CALLBACK_COUNT ∧ w1.YLOG_LOG_CALLBACKS = none)
      ∧ (∀ alloc : Bool, w.YLOG_CALLBACK_COUNT < 1 →
          ∃ w1, Ylog_Realloc_Log_Callback_List alloc w = Except.ok (YLOG_SUCCESS, w1)
            ∧ w1.YLOG_LOG_CALLBACKS = none
            ∧ (w.YLOG_LOG_CALLBACKS ≠ none → w1.YLOG_CALLBACK_COUNT = 0)
            ∧ (w.YLOG_LOG_CALLBACKS = none →
                w1.YLOG_CALLBACK_COUNT = w.YLOG_CALLBACK_COUNT)) := by
  refine ⟨fun w1 h => free_result w w1 h, ?_, ?_⟩
  · intro hs
    obtain ⟨ha, _, hc⟩ := free_result w _ (free_of_null w hs)
    exact ⟨_, free_of_null w hs, hc hs, ha⟩
  · intro alloc hc
    obtain ⟨w1, h1⟩ := free_of_nonpositive w hc
    refine ⟨w1, ?_, free_result w w1 h1⟩
    simp [Ylog_Realloc_Log_Callback_List, hc, h1]

/-- C9 amended, exercised on three runs: the release of a registry holding two
distinct registrations, which returns with count 0 and storage `NULL`; the
call on the registry left by a failed first allocation, which returns at the
guard with the count still 1; and the resize of a registry whose count is 0
while a one-slot array is allocated, which reports success and leaves count 0
and storage `NULL`. -/
theorem C9_free_empties_allocated_registry_witness :
    (∃ w1, Ylog_Free_Log_Callback_List sampleWorld = Except.ok w1
        ∧ sampleWorld.YLOG_LOG_CALLBACKS ≠ none
        ∧ w1.YLOG_LOG_CALLBACKS = none ∧ w1.YLOG_CALLBACK_COUNT = 0)
      ∧ (worldAfterFailedFirstAlloc.YLOG_LOG_CALLBACKS = none
          ∧ ∃ w1, Ylog_Free_Log_Callback_List worldAfterFailedFirstAlloc = Except.ok w1
              ∧ w1.YLOG_CALLBACK_COUNT = worldAfterFailedFirstAlloc.YLOG_CALLBACK_COUNT
              ∧ w1.YLOG_LOG_CALLBACKS = none)
      ∧ ((0 : Int) < 1
          ∧ ∃ w1, Ylog_Realloc_Log_Callback_List true
                { YLOG_CALLBACK_COUNT := 0,
                  YLOG_LOG_CALLBACKS := some [Slot.ptr (some sampleAny)],
                  trace := [] } = Except.ok (YLOG_SUCCESS, w1)
              ∧ w1.YLOG_LOG_CALLBACKS = none ∧ w1.YLOG_CALLBACK_COUNT = 0) :=
  have hrun : Ylog_Free_Log_Callback_List sampleWorld = Except.ok
      { YLOG_CALLBACK_COUNT := 0, YLOG_LOG_CALLBACKS := none,
        trace := sampleWorld.trace ++ [Effect.lock, Effect.freeCallback sampleAny,
          Effect.freeCallback sampleError,
          Effect.freeList [Slot.ptr (some sampleAny), Slot.ptr (some sampleError)],
          Effect.storeCount 0, Effect.storeList none, Effect.unlock] } := rfl
  have hne : sampleWorld.YLOG_LOG_CALLBACKS ≠ none := by decide
  have h1 := (C9_free_empties_allocated_registry sampleWorld).1 _ hrun
  have h2 := (C9_free_empties_allocated_registry worldAfterFailedFirstAlloc).2.1 rfl
  have h3 := (C9_free_empties_allocated_registry
      { YLOG_CALLBACK_COUNT := 0,
        YLOG_LOG_CALLBACKS := some [Slot.ptr (some sampleAny)],
        trace := [] }).2.2 true (by decide)
  match h3 with
  | ⟨w1, a, b, c, _⟩ =>
    ⟨⟨_, hrun, hne, h1.1, h1.2.1 hne⟩, ⟨rfl, h2⟩, ⟨by decide, w1, a, b, c (by decide)⟩⟩

/-- C10, as stated, fails: in the registry left by a registration whose first
allocation failed (count 1, storage `NULL`), two calls of
`Ylog_Free_Log_Callback_List` in a row both return and leave the count at 1,
so the state they agree on is not the empty registry. -/
theorem C10_second_free_not_empty :
    YlogAddCallback false (some sampleAny) (World.initial [])
        = Except.ok (YLOG_FAILURE, worldAfterFailedFirstAlloc)
      ∧ ∃ w1 w2, Ylog_Free_Log_Callback_List worldAfterFailedFirstAlloc = Except.ok w1
          ∧ Ylog_Free_Log_Callback_List w1 = Except.ok w2
          ∧ w2.YLOG_CALLBACK_COUNT = 1 ∧ w2.YLOG_LOG_CALLBACKS = none
          ∧ ¬ (w2.YLOG_CALLBACK_COUNT = 0 ∧ w2.YLOG_LOG_CALLBACKS = none) := by
  refine ⟨rfl, { worldAfterFailedFirstAlloc with
      trace := worldAfterFailedFirstAlloc.trace ++ [Effect.lock, Effect.unlock] },
    { worldAfterFailedFirstAlloc with
      trace := worldAfterFailedFirstAlloc.trace ++
        [Effect.lock, Effect.unlock, Effect.lock, Effect.unlock] }, rfl, rfl, rfl, rfl, ?_⟩
  decide

/-- C10, amended: called on the empty registry (count 0, storage `NULL`),
`Ylog_Free_Log_Callback_List` returns and leaves count and storage as they
were; and for every starting state from which a first call returns, a second
call returns too and leaves the count and the storage the first call
produced.  That state is the empty registry whenever the storage was
allocated before the first call or the count was already 0. -/
theorem C10_free_idempotent (w : World) (t : List Effect) :
    Ylog_Free_Log_Callback_List (World.initial t)
        = Except.ok { YLOG_CALLBACK_COUNT := 0, YLOG_LOG_CALLBACKS := none,
                      trace := t ++ [Effect.lock, Effect.unlock] }
      ∧ ∀ w1, Ylog_Free_Log_Callback_List w = Except.ok w1 →
          (∃ w2, Ylog_Free_Log_Callback_List w1 = Except.ok w2
            ∧ w2.YLOG_CALLBACK_COUNT = w1.YLOG_CALLBACK_COUNT
            ∧ w2.YLOG_LOG_CALLBACKS = w1.YLOG_LOG_CALLBACKS)
          ∧ (w.YLOG_LOG_CALLBACKS ≠ none ∨ w.YLOG_CALLBACK_COUNT = 0 →
              w1.YLOG_CALLBACK_COUNT = 0 ∧ w1.YLOG_LOG_CALLBACKS = none) := by
  refine ⟨by simp [free_of_null, World.initial], ?_⟩
  intro w1 h1
  obtain ⟨ha, hb, hc⟩ := free_result w w1 h1
  refine ⟨⟨_, free_of_null w1 ha, rfl, rfl⟩, ?_⟩
  intro hcase
  refine ⟨?_, ha⟩
  by_cases hs : w.YLOG_LOG_CALLBACKS = none
  · rcases hcase with h | h
    · exact absurd hs h
    · rw [hc hs, h]
  · exact hb hs

/-- C10 amended, exercised on a registry holding two registrations. -/
theorem C10_free_idempotent_witness :
    ∃ w1, Ylog_Free_Log_Callback_List sampleWorld = Except.ok w1
      ∧ (∃ w2, Ylog_Free_Log_Callback_List w1 = Except.ok w2
          ∧ w2.YLOG_CALLBACK_COUNT = w1.YLOG_CALLBACK_COUNT
          ∧ w2.YLOG_LOG_CALLBACKS = w1.YLOG_LOG_CALLBACKS)
      ∧ (sampleWorld.YLOG_LOG_CALLBACKS ≠ none ∨ sampleWorld.YLOG_CALLBACK_COUNT = 0 →
          w1.YLOG_CALLBACK_COUNT = 0 ∧ w1.YLOG_LOG_CALLBACKS = none) :=
  ⟨{ YLOG_CALLBACK_COUNT := 0, YLOG_LOG_CALLBACKS := none,
     trace := sampleWorld.trace ++ [Effect.lock, Effect.freeCallback sampleAny,
       Effect.freeCallback sampleError,
       Effect.freeList [Slot.ptr (some sampleAny), Slot.ptr (some sampleError)],
       Effect.storeCount 0, Effect.storeList none, Effect.unlock] },
   rfl, (C10_free_idempotent sampleWorld []).2 _ rfl⟩

/-! ## The claims of the second group -/

/-- C11: `YlogExecuteEvent(NULL)` is a no-op for every registry state: it
returns the world it received, so no effect is performed, no handler is
invoked and the registry is unchanged.  Hence an emit through `Ylog` whose
`YlogCreateEvent` returned `NULL` returns the world as it was and reaches no
handler. -/
theorem C11_null_event_is_noop (w : World) (env : EventEnv) (type : Int) :
    (∃ w2, YlogExecuteEvent none w = Except.ok w2 ∧ w2 = w
        ∧ effectsSince w w2 = [] ∧ invocations (effectsSince w w2) = [])
      ∧ (YlogCreateEvent env type = Except.ok none →
          ∃ w2, Ylog env type w = Except.ok w2 ∧ w2 = w
            ∧ invocations (effectsSince w w2) = []) := by
  refine ⟨⟨w, rfl, rfl, by simp [effectsSince], by simp [effectsSince, invocations]⟩, ?_⟩
  intro h
  refine ⟨w, ?_, rfl, by simp [effectsSince, invocations]⟩
  simp [Ylog, executeCreated, h, YlogExecuteEvent]

/-- C11, exercised on an emit whose event allocation fails, against a registry
holding two registrations. -/
theorem C11_null_event_is_noop_witness :
    YlogCreateEvent { sampleEnv with allocEvent := false } YLOGWARN = Except.ok none
      ∧ ∃ w2, Ylog { sampleEnv with allocEvent := false } YLOGWARN sampleWorld = Except.ok w2
          ∧ w2 = sampleWorld ∧ invocations (effectsSince sampleWorld w2) = [] :=
  ⟨rfl, (C11_null_event_is_noop sampleWorld { sampleEnv with allocEvent := false }
    YLOGWARN).2 rfl⟩

/-- C12: the code at the failing input.  With the event allocated and the
measuring `vsnprintf` returning -1 (or any negative length), `YlogCreateEvent`
returns an event of the given severity whose `msg` was never assigned: it is
the indeterminate content `malloc` left, not `NULL`.  The other parts of the
claim hold: the result is `NULL` exactly when the allocation of the event
fails, and a failed allocation of the message gives an event whose `msg` is
`NULL`. -/
theorem C12_negative_length_leaves_msg_indeterminate :
    YlogCreateEvent
        { allocEvent := true, now := 0, requiredSize := -1, allocMsg := true, text := "" }
        YLOGWARN
        = Except.ok (some { type := YLOGWARN, time := 0, msg := CharPtr.indeterminate })
      ∧ CharPtr.indeterminate ≠ CharPtr.null
      ∧ (∀ (now : Int) (n : Nat) (allocMsg : Bool) (text : String) (type : Int),
          YlogCreateEvent
            { allocEvent := true, now := now, requiredSize := -((n : Int) + 1),
              allocMsg := allocMsg, text := text } type
            = Except.ok (some { type := type, time := now, msg := CharPtr.indeterminate }))
      ∧ (∀ (env : EventEnv) (type : Int),
          YlogCreateEvent env type = Except.ok none ↔ env.allocEvent = false)
      ∧ YlogCreateEvent { sampleEnv with allocMsg := false } YLOGWARN
          = Except.ok (some { type := YLOGWARN, time := 0, msg := CharPtr.null })
      ∧ YlogCreateEvent sampleEnv YLOGERROR = Except.ok (some sampleEvent) := by
  refine ⟨rfl, by decide, ?_, ?_, rfl, rfl⟩
  · intro now n allocMsg text type
    have hneg : -((n : Int) + 1) < 0 := by omega
    simp only [YlogCreateEvent, not_true_eq_false, if_false, if_pos hneg]
  · intro env type
    cases ha : env.allocEvent
    · simp [YlogCreateEvent, ha]
    · by_cases h1 : env.requiredSize < 0
      · simp [YlogCreateEvent, ha, h1]
      · by_cases h2 : env.requiredSize = INT_MAX
        · have h3 : ¬ (INT_MAX < 0) := by decide
          simp [YlogCreateEvent, ha, h2, h3]
        · cases hm : env.allocMsg <;> simp [YlogCreateEvent, ha, h1, h2, hm]

/-- C13: the code at the failing inputs.  For every registry holding
registrations and every event, `YlogExecuteEvent` returns and the only `free`
it performs is `free(ev)`: the message buffer `ev->msg` is not released.  In
particular an event created with the text "boom" and dispatched through
`Ylog` ends with `free(ev)` alone. -/
theorem C13_message_buffer_not_released (cbs : List LogCallback) (ev : LogEvent)
    (t : List Effect) :
    (∃ w2, YlogExecuteEvent (some ev) (registryOf cbs t) = Except.ok w2
        ∧ releases (effectsSince (registryOf cbs t) w2) = [Effect.freeEvent ev]
        ∧ Effect.freeMessage ev.msg ∉ effectsSince (registryOf cbs t) w2)
      ∧ YlogCreateEvent sampleEnv YLOGERROR = Except.ok (some sampleEvent)
      ∧ sampleEvent.msg = CharPtr.text "boom"
      ∧ Ylog sampleEnv YLOGERROR sampleWorld
          = Except.ok { sampleWorld with trace := sampleWorld.trace ++
              [Effect.lock, Effect.invoke 1 sampleEvent, Effect.invoke 2 sampleEvent,
               Effect.freeEvent sampleEvent, Effect.unlock] } := by
  refine ⟨?_, rfl, rfl, rfl⟩
  have hex := executeEvent_registered ev cbs _ (registered_registryOf cbs t)
  refine ⟨_, hex, executeEvent_releases ev _ _ hex, ?_⟩
  intro hmem
  have := mem_releases ev.msg _ hmem
  rw [executeEvent_releases ev _ _ hex] at this
  simp at this

/-- C14: when `Ylog_Realloc_Log_Callback_List` is called with a count of at
least 1 and allocated storage, and `realloc` fails, it returns `YLOG_FAILURE`;
`YLOG_LOG_CALLBACKS` is the same array, every slot holds what it held, the
count is untouched, and the only effects are the lock and unlock calls:
nothing is freed. -/
theorem C14_failed_realloc_keeps_storage (w : World) (slots : List Slot)
    (hc : 1 ≤ w.YLOG_CALLBACK_COUNT) (hs : w.YLOG_LOG_CALLBACKS = some slots) :
    ∃ w2, Ylog_Realloc_Log_Callback_List false w = Except.ok (YLOG_FAILURE, w2)
      ∧ w2.YLOG_LOG_CALLBACKS = some slots
      ∧ (∀ i : Nat, ∀ s2, w2.YLOG_LOG_CALLBACKS = some s2 → s2[i]? = slots[i]?)
      ∧ w2.YLOG_CALLBACK_COUNT = w.YLOG_CALLBACK_COUNT
      ∧ effectsSince w w2 = [Effect.lock, Effect.unlock]
      ∧ releases (effectsSince w w2) = [] := by
  refine ⟨{ w with trace := w.trace ++ [Effect.lock, Effect.unlock] }, ?_, hs, ?_, rfl, ?_, ?_⟩
  · rw [realloc_of_positive false w hc]
    simp [hs]
  · intro i s2 h2
    rw [hs] at h2
    simp at h2
    rw [h2]
  · simp [effectsSince]
  · simp [effectsSince, releases]

/-- C14, exercised on a registry holding one registration. -/
theorem C14_failed_realloc_keeps_storage_witness :
    1 ≤ worldAfterOneRegistration.YLOG_CALLBACK_COUNT
      ∧ worldAfterOneRegistration.YLOG_LOG_CALLBACKS = some [Slot.ptr (some sampleAny)]
      ∧ ∃ w2, Ylog_Realloc_Log_Callback_List false worldAfterOneRegistration
            = Except.ok (YLOG_FAILURE, w2)
          ∧ w2.YLOG_LOG_CALLBACKS = some [Slot.ptr (some sampleAny)]
          ∧ (∀ i : Nat, ∀ s2, w2.YLOG_LOG_CALLBACKS = some s2 →
              s2[i]? = [Slot.ptr (some sampleAny)][i]?)
          ∧ w2.YLOG_CALLBACK_COUNT = worldAfterOneRegistration.YLOG_CALLBACK_COUNT
          ∧ effectsSince worldAfterOneRegistration w2 = [Effect.lock, Effect.unlock]
          ∧ releases (effectsSince worldAfterOneRegistration w2) = [] :=
  ⟨by decide, rfl,
    C14_failed_realloc_keeps_storage worldAfterOneRegistration [Slot.ptr (some sampleAny)]
      (by decide) rfl⟩

/-- C15: on every returning path of `YlogAddCallback`,
`Ylog_Log_Callback_Increase`, `Ylog_Realloc_Log_Callback_List`,
`Ylog_Alloc_Log_Callback_List` and `Ylog_Free_Log_Callback_List`, from every
registry state, each store to `YLOG_CALLBACK_COUNT`, to the pointer
`YLOG_LOG_CALLBACKS` or to one of its slots happens after a
`Ylog_Lock_Thread` call and before the matching `Ylog_Unlock_Thread` call. -/
theorem C15_stores_happen_under_lock (alloc : Bool) (cb : Option LogCallback) (w w2 : World)
    (r : Int) :
    (YlogAddCallback alloc cb w = Except.ok (r, w2) →
        storesUnderLock 0 (effectsSince w w2) = true)
      ∧ (Ylog_Log_Callback_Increase alloc w = Except.ok (r, w2) →
          storesUnderLock 0 (effectsSince w w2) = true)
      ∧ (Ylog_Realloc_Log_Callback_List alloc w = Except.ok (r, w2) →
          storesUnderLock 0 (effectsSince w w2) = true)
      ∧ (Ylog_Alloc_Log_Callback_List alloc w = Except.ok (r, w2) →
          storesUnderLock 0 (effectsSince w w2) = true)
      ∧ (Ylog_Free_Log_Callback_List w = Except.ok w2 →
          storesUnderLock 0 (effectsSince w w2) = true) :=
  ⟨fun h => stores_of_disciplined w w2 (addCallback_disciplined alloc cb w w2 r h),
   fun h => stores_of_disciplined w w2 (increase_disciplined alloc w w2 r h),
   fun h => stores_of_disciplined w w2 (realloc_disciplined alloc w w2 r h),
   fun h => stores_of_disciplined w w2 (alloc_disciplined alloc w w2 r h),
   fun h => stores_of_disciplined w w2 (free_disciplined w w2 h)⟩

/-- C15, exercised on the first successful registration, whose three stores
each sit between a lock and an unlock call. -/
theorem C15_stores_happen_under_lock_witness :
    YlogAddCallback true (some sampleAny) (World.initial [])
        = Except.ok (YLOG_SUCCESS, worldAfterOneRegistration)
      ∧ effectsSince (World.initial []) worldAfterOneRegistration
          = [Effect.lock, Effect.storeCount 1, Effect.unlock,
             Effect.lock, Effect.storeList (some [Slot.indeterminate]), Effect.unlock,
             Effect.lock, Effect.storeSlot 0 (some sampleAny), Effect.unlock]
      ∧ storesUnderLock 0 (effectsSince (World.initial []) worldAfterOneRegistration) = true :=
  ⟨rfl, rfl,
    (C15_stores_happen_under_lock true (some sampleAny) (World.initial [])
      worldAfterOneRegistration YLOG_SUCCESS).1 rfl⟩

/-- C16: for every prior count `c` below `INT_MAX`,
`Ylog_Log_Callback_Increase` returns; its increment step, under the lock,
first stores 0 when `c` is negative and then stores `max(c, 0) + 1`; the count
is not stored to again, so when the function returns the count is
`max(c, 0) + 1`, which is at least 1. -/
theorem C16_increment_clamps_negative_count (alloc : Bool) (w : World)
    (hc : w.YLOG_CALLBACK_COUNT < INT_MAX) :
    ∃ r w2 rest, Ylog_Log_Callback_Increase alloc w = Except.ok (r, w2)
      ∧ effectsSince w w2 = [Effect.lock]
          ++ (if w.YLOG_CALLBACK_COUNT < 0 then [Effect.storeCount 0] else [])
          ++ [Effect.storeCount (max w.YLOG_CALLBACK_COUNT 0 + 1), Effect.unlock] ++ rest
      ∧ (∀ v, Effect.storeCount v ∉ rest)
      ∧ w2.YLOG_CALLBACK_COUNT = max w.YLOG_CALLBACK_COUNT 0 + 1
      ∧ 1 ≤ w2.YLOG_CALLBACK_COUNT := by
  have hpos : (1 : Int) ≤ max w.YLOG_CALLBACK_COUNT 0 + 1 := by omega
  obtain ⟨r, w2, rest, h1, h2, h3, h4⟩ := realloc_positive_result alloc
    { YLOG_CALLBACK_COUNT := max w.YLOG_CALLBACK_COUNT 0 + 1,
      YLOG_LOG_CALLBACKS := w.YLOG_LOG_CALLBACKS,
      trace := w.trace ++ ([Effect.lock]
        ++ (if w.YLOG_CALLBACK_COUNT < 0 then [Effect.storeCount 0] else [])
        ++ [Effect.storeCount (max w.YLOG_CALLBACK_COUNT 0 + 1), Effect.unlock]) } hpos
  refine ⟨r, w2, rest, ?_, ?_, h3, h4, by rw [h4]; exact hpos⟩
  · rw [increase_unfold alloc w hc]
    exact h1
  · apply effectsSince_of_trace
    rw [h2]
    simp

/-- C16, exercised on a count of -3, which becomes 1. -/
theorem C16_increment_clamps_negative_count_witness :
    (-3 : Int) < INT_MAX
      ∧ ∃ r w2 rest, Ylog_Log_Callback_Increase true
            { YLOG_CALLBACK_COUNT := -3, YLOG_LOG_CALLBACKS := none, trace := [] }
            = Except.ok (r, w2)
          ∧ effectsSince
              { YLOG_CALLBACK_COUNT := -3, YLOG_LOG_CALLBACKS := none, trace := [] } w2
              = [Effect.lock] ++ (if (-3 : Int) < 0 then [Effect.storeCount 0] else [])
                  ++ [Effect.storeCount (max (-3 : Int) 0 + 1), Effect.unlock] ++ rest
          ∧ (∀ v, Effect.storeCount v ∉ rest)
          ∧ w2.YLOG_CALLBACK_COUNT = max (-3 : Int) 0 + 1
          ∧ 1 ≤ w2.YLOG_CALLBACK_COUNT :=
  ⟨by decide,
    C16_increment_clamps_negative_count true
      { YLOG_CALLBACK_COUNT := -3, YLOG_LOG_CALLBACKS := none, trace := [] } (by decide)⟩

/-- C17: the code at the failing inputs, all reachable from the empty registry
by `YlogAddCallback` calls.  After a failed first allocation the count is 1
and the storage `NULL`: the dispatch indexes `NULL`.  After a success and a
failed reallocation the count is 2 with 1 slot: the dispatch reads slot 1 past
the end.  After one more successful registration the array has 3 slots of
which slot 1 was never assigned: the dispatch reads it. -/
theorem C17_dispatch_reads_invalid_slots :
    registerAll [(false, some sampleAny)] (World.initial [])
        = Except.ok ([YLOG_FAILURE], worldAfterFailedFirstAlloc)
      ∧ readSlot worldAfterFailedFirstAlloc 0 = Except.error Fault.nullDeref
      ∧ YlogExecuteEvent (some sampleEvent) worldAfterFailedFirstAlloc
          = Except.error Fault.nullDeref
      ∧ registerAll [(true, some sampleAny), (false, some sampleError)] (World.initial [])
          = Except.ok ([YLOG_SUCCESS, YLOG_FAILURE], worldAfterFailedRealloc)
      ∧ readSlot worldAfterFailedRealloc 1 = Except.error Fault.outOfBounds
      ∧ YlogExecuteEvent (some sampleEvent) worldAfterFailedRealloc
          = Except.error Fault.outOfBounds
      ∧ registerAll [(true, some sampleAny), (false, some sampleError),
            (true, some sampleError)] (World.initial [])
          = Except.ok ([YLOG_SUCCESS, YLOG_FAILURE, YLOG_SUCCESS], worldWithUnassignedSlot)
      ∧ readSlot worldWithUnassignedSlot 1 = Except.error Fault.indeterminateRead
      ∧ YlogExecuteEvent (some sampleEvent) worldWithUnassignedSlot
          = Except.error Fault.indeterminateRead := by
  refine ⟨rfl, rfl, rfl, rfl, rfl, rfl, rfl, rfl, rfl⟩

/-- C18: the code at the failing input.  `YlogAddError` and `YlogError` pass
the identifier `ERROR`, not `YLOGERROR`.  Where `ERROR` is 0 (the value the
Windows GDI header gives it), `YlogAddError` registers a callback whose filter
is `YLOGTRACE`, and `YlogError` dispatches an event of severity `YLOGTRACE`,
which a handler registered for `YLOGERROR` does not receive, while an
`YLOGERROR` event does reach it.  The twelve other forms pass the enumerator
of their level. -/
theorem C18_error_forms_pass_ERROR :
    (∃ w, YlogAddError 0 true true (some 2) (World.initial []) = Except.ok (YLOG_SUCCESS, w)
        ∧ w.YLOG_LOG_CALLBACKS = some [Slot.ptr (some { type := YLOGTRACE, func := some 2 })]
        ∧ w.YLOG_LOG_CALLBACKS ≠ some [Slot.ptr (some { type := YLOGERROR, func := some 2 })])
      ∧ (∃ w2, YlogError 0 sampleEnv (registryOf [sampleError] []) = Except.ok w2
          ∧ effectsSince (registryOf [sampleError] []) w2
              = [Effect.lock, Effect.freeEvent { sampleEvent with type := YLOGTRACE },
                 Effect.unlock]
          ∧ invocations (effectsSince (registryOf [sampleError] []) w2) = [])
      ∧ (∃ w2, Ylog sampleEnv YLOGERROR (registryOf [sampleError] []) = Except.ok w2
          ∧ invocations (effectsSince (registryOf [sampleError] []) w2) = [(2, sampleEvent)])
      ∧ (∀ (ERROR : Int) (env : EventEnv) (w : World),
          YlogError ERROR env w = Ylog env ERROR w
            ∧ YlogTrace env w = Ylog env YLOGTRACE w
            ∧ YlogDebug env w = Ylog env YLOGDEBUG w
            ∧ YlogInfo env w = Ylog env YLOGINFO w
            ∧ YlogWarn env w = Ylog env YLOGWARN w
            ∧ YlogFatal env w = Ylog env YLOGFATAL w
            ∧ YlogAny env w = Ylog env YLOGANY w)
      ∧ (∀ (ERROR : Int) (allocList : Bool) (f : Nat) (w : World),
          YlogAddError ERROR true allocList (some f) w
              = YlogAddCallback allocList (some { type := ERROR, func := some f }) w
            ∧ YlogAddTrace true allocList (some f) w
              = YlogAddCallback allocList (some { type := YLOGTRACE, func := some f }) w
            ∧ YlogAddDebug true allocList (some f) w
              = YlogAddCallback allocList (some { type := YLOGDEBUG, func := some f }) w
            ∧ YlogAddInfo true allocList (some f) w
              = YlogAddCallback allocList (some { type := YLOGINFO, func := some f }) w
            ∧ YlogAddWarn true allocList (some f) w
              = YlogAddCallback allocList (some { type := YLOGWARN, func := some f }) w
            ∧ YlogAddFatal true allocList (some f) w
              = YlogAddCallback allocList (some { type := YLOGFATAL, func := some f }) w
            ∧ YlogAddAny true allocList (some f) w
              = YlogAddCallback allocList (some { type := YLOGANY, func := some f }) w) := by
  refine ⟨⟨_, rfl, rfl, by decide⟩, ⟨_, rfl, rfl, rfl⟩, ⟨_, rfl, rfl⟩, ?_, ?_⟩
  · intro ERROR env w
    exact ⟨rfl, rfl, rfl, rfl, rfl, rfl, rfl⟩
  · intro ERROR allocList f w
    exact ⟨rfl, rfl, rfl, rfl, rfl, rfl, rfl⟩

/-- C19: on every returning path (success, failure or early return) of
`YlogAddCallback`, `YlogExecuteEvent`, `Ylog_Log_Callback_Increase`,
`Ylog_Realloc_Log_Callback_List`, `Ylog_Alloc_Log_Callback_List` and
`Ylog_Free_Log_Callback_List`, from every registry state, the number of
`Ylog_Unlock_Thread` calls equals the number of `Ylog_Lock_Thread` calls, and
the lock is never taken while already held nor released while not held. -/
theorem C19_lock_calls_balanced (alloc : Bool) (cb : Option LogCallback)
    (ev : Option LogEvent) (w w2 : World) (r : Int) :
    (YlogAddCallback alloc cb w = Except.ok (r, w2) →
        lockCalls (effectsSince w w2) = unlockCalls (effectsSince w w2)
          ∧ lockNeverNested false (effectsSince w w2) = true)
      ∧ (YlogExecuteEvent ev w = Except.ok w2 →
          lockCalls (effectsSince w w2) = unlockCalls (effectsSince w w2)
            ∧ lockNeverNested false (effectsSince w w2) = true)
      ∧ (Ylog_Log_Callback_Increase alloc w = Except.ok (r, w2) →
          lockCalls (effectsSince w w2) = unlockCalls (effectsSince w w2)
            ∧ lockNeverNested false (effectsSince w w2) = true)
      ∧ (Ylog_Realloc_Log_Callback_List alloc w = Except.ok (r, w2) →
          lockCalls (effectsSince w w2) = unlockCalls (effectsSince w w2)
            ∧ lockNeverNested false (effectsSince w w2) = true)
      ∧ (Ylog_Alloc_Log_Callback_List alloc w = Except.ok (r, w2) →
          lockCalls (effectsSince w w2) = unlockCalls (effectsSince w w2)
            ∧ lockNeverNested false (effectsSince w w2) = true)
      ∧ (Ylog_Free_Log_Callback_List w = Except.ok w2 →
          lockCalls (effectsSince w w2) = unlockCalls (effectsSince w w2)
            ∧ lockNeverNested false (effectsSince w w2) = true) :=
  ⟨fun h => balance_of_disciplined w w2 (addCallback_disciplined alloc cb w w2 r h),
   fun h => balance_of_disciplined w w2 (executeEvent_disciplined ev w w2 h),
   fun h => balance_of_disciplined w w2 (increase_disciplined alloc w w2 r h),
   fun h => balance_of_disciplined w w2 (realloc_disciplined alloc w w2 r h),
   fun h => balance_of_disciplined w w2 (alloc_disciplined alloc w w2 r h),
   fun h => balance_of_disciplined w w2 (free_disciplined w w2 h)⟩

/-- C19, exercised on a registration whose reallocation fails: two lock calls,
two unlock calls, never nested. -/
theorem C19_lock_calls_balanced_witness :
    YlogAddCallback false (some sampleError) worldAfterOneRegistration
        = Except.ok (YLOG_FAILURE, worldAfterFailedRealloc)
      ∧ effectsSince worldAfterOneRegistration worldAfterFailedRealloc
          = [Effect.lock, Effect.storeCount 2, Effect.unlock, Effect.lock, Effect.unlock]
      ∧ lockCalls (effectsSince worldAfterOneRegistration worldAfterFailedRealloc)
          = unlockCalls (effectsSince worldAfterOneRegistration worldAfterFailedRealloc)
      ∧ lockNeverNested false
          (effectsSince worldAfterOneRegistration worldAfterFailedRealloc) = true :=
  ⟨rfl, rfl,
    (C19_lock_calls_balanced false (some sampleError) none worldAfterOneRegistration
      worldAfterFailedRealloc YLOG_FAILURE).1 rfl⟩

end Ylog
